import Mathlib

/-!
# HR_Cold_Email — verification of the campaign dispatch engine

Shallow embedding of the backend's campaign dispatch engine:

* `personalizeContent`   — `EmailService.personalizeContent`
  (backend/src/services/email.service.ts, pooled variant)
* `EmailService` pooled transporter cache (`getTransporter`, `sendEmail`)
* `sendCampaign` dispatch loop (backend/src/controllers/campaign.controller.ts)
* tracking service (`createTrackingRecord`, `recordEmailOpen`,
  `rewriteLinksForTracking`, `recordLinkClick`, `getTrackingStats`)
  (backend/src/services/tracking.service.ts)

Strings scanned by regexes are modelled as `List Char`.  The `gi` regex
flag is modelled by ASCII lower-casing, matching JavaScript's behaviour on
the ASCII identifiers and attribute names involved.  The file-backed JSONL
tracking store is modelled as the list of records it holds; `load`/`save`
round-trips become the identity.  Clock values (`Date.now()`,
`toISOString()`) are supplied by the caller.
-/

namespace HRCE


/-- ASCII lower-casing at the code-point level: the model of the regex
`i` flag.  (`A`–`Z` map to `a`–`z`; everything else is untouched.) -/
def lower (c : Char) : Nat :=
  if 65 ≤ c.toNat ∧ c.toNat ≤ 90 then c.toNat + 32 else c.toNat

/-- Case-insensitive character equality (regex `i` flag). -/
def lowEq (a b : Char) : Bool := lower a == lower b

/-- Case-insensitive "does `pat` occur at the start of `s`". -/
def ciPrefix : List Char → List Char → Bool
  | [], _ => true
  | _ :: _, [] => false
  | p :: ps, c :: cs => lowEq p c && ciPrefix ps cs

/-- `pat` and `occ` disagree (case-insensitively) at some position where
both are defined; then `pat` can never match at the start of
`occ ++ rest`, whatever `rest` is. -/
def ciStops : List Char → List Char → Bool
  | _, [] => false
  | [], _ => false
  | p :: ps, c :: cs => !lowEq p c || ciStops ps cs

/-- Case-sensitive substring containment (JavaScript `String.includes`). -/
def containsSub (pat : List Char) : List Char → Bool
  | [] => pat.isEmpty
  | c :: cs => pat.isPrefixOf (c :: cs) || containsSub pat cs

/-- One global, case-insensitive, non-overlapping search-and-replace pass
over `s` — the model of
`result.replace(new RegExp('\x7b' + key + '\x7d', 'gi'), value)`.
JavaScript's scanner finds the leftmost match, emits the replacement, and
resumes *after* the matched portion of the source.  `fuel` bounds the
number of scanning steps; every step consumes at least one source
character, so `fuel = s.length` is always enough. -/
def replaceCIF (pat rep : List Char) : Nat → List Char → List Char
  | _, [] => []
  | 0, s => s
  | f + 1, c :: cs =>
    if !pat.isEmpty && ciPrefix pat (c :: cs) then
      rep ++ replaceCIF pat rep f (List.drop (pat.length - 1) cs)
    else
      c :: replaceCIF pat rep f cs

/-- Global case-insensitive replace (fuel instantiated). -/
def replaceCI (pat rep s : List Char) : List Char :=
  replaceCIF pat rep s.length s

/-- `EmailService.personalizeContent` (email.service.ts, pooled variant):
for each `(key, value)` entry of the data map, in insertion order,
globally replace `\x7bkey\x7d` case-insensitively by the value.
(`value || ''` is the identity on actual strings, an empty value stays
empty.) -/
def personalizeContent (template : List Char) (data : List (String × String)) :
    List Char :=
  data.foldl
    (fun acc kv => replaceCI ('{' :: kv.1.data ++ ['}']) kv.2.data acc)
    template

/-- A recipient row as received by `sendCampaign`
(campaign.controller.ts `SendCampaignRequest`). -/
structure Recipient where
  email : String
  fullName : String
  companyName : String
  jobTitle : Option String
  deriving Repr, DecidableEq

/-- The data map `sendCampaign` builds for `personalizeContent`:
`fullName`, `companyName` and `jobTitle` (defaulted to `''`) — and
nothing else; in particular no `email` entry. -/
def mkData (r : Recipient) : List (String × String) :=
  [("fullName", r.fullName), ("companyName", r.companyName),
   ("jobTitle", r.jobTitle.getD "")]

/-- No character of `s` is case-insensitively equal to `p` (so no match of
a pattern starting with `p` can begin inside `s`). -/
def noCI (p : Char) (s : List Char) : Bool := s.all (fun c => !(lowEq p c))

/-! ## Tracking subsystem (tracking.service.ts)

The JSONL file store is modelled as the list of `TrackingRecord`s it
holds: `loadTrackingRecords`/`saveTrackingRecords` round-trips become the
identity, and each service function maps an input store to an output
store.  ISO timestamps are opaque `String`s supplied by the caller. -/

/-- `LinkRecord` (tracking.service.ts). -/

structure LinkRecord where
  clickToken : String
  originalUrl : String
  clickCount : Nat
  firstClickedAt : Option String
  lastClickedAt : Option String
  deriving Repr, DecidableEq

/-- `TrackingRecord` (tracking.service.ts). -/
structure TrackingRecord where
  id : String
  trackingToken : String
  recipientEmail : String
  subject : Option String
  campaignId : Option String
  openCount : Nat
  firstOpenedAt : Option String
  lastOpenedAt : Option String
  userAgent : Option String
  ipAddress : Option String
  links : List LinkRecord
  createdAt : String
  deriving Repr, DecidableEq

/-- JavaScript truthiness of an optional string: `undefined` and `''`
are falsy. -/
def strTruthy : Option String → Bool
  | none => false
  | some s => !(s == "")

/-- The in-place mutation `recordEmailOpen` performs on the record it
finds: bump `openCount`, set `lastOpenedAt`, set `firstOpenedAt` only if
currently falsy, overwrite `userAgent`/`ipAddress` with the request's
values. -/
def updOpen (now : String) (ua ip : Option String) (r : TrackingRecord) :
    TrackingRecord :=
  { r with
    openCount := r.openCount + 1
    lastOpenedAt := some now
    firstOpenedAt := if strTruthy r.firstOpenedAt then r.firstOpenedAt else some now
    userAgent := ua
    ipAddress := ip }

/-- `recordEmailOpen` (tracking.service.ts): find the record by
`trackingToken` (`findIndex` — first match), update it in place and save;
return `false` without touching the store when the token is unknown.
The `try`/`catch` that downgrades storage errors to `false` is modelled
by the function being total. -/
def recordEmailOpen (token now : String) (ua ip : Option String) :
    List TrackingRecord → Bool × List TrackingRecord
  | [] => (false, [])
  | r :: rs =>
    if r.trackingToken == token then (true, updOpen now ua ip r :: rs)
    else
      let p := recordEmailOpen token now ua ip rs
      (p.1, r :: p.2)

/-- JavaScript `Math.round` on non-negative values: round half up. -/
def jsRound (q : ℚ) : ℤ := ⌊q + 1 / 2⌋

/-- The campaign filter of `getTrackingStats`: applied only when
`campaignId` is truthy. -/
def filterByCampaign (campaignId : Option String) (records : List TrackingRecord) :
    List TrackingRecord :=
  match campaignId with
  | none => records
  | some c => if c == "" then records else records.filter (fun r => r.campaignId == some c)

/-- The nested `for` loops of `getTrackingStats` over one record's links:
`(totalClicks, uniqueClicks)` contribution. -/
def statClicks : List LinkRecord → Nat × Nat
  | [] => (0, 0)
  | l :: ls =>
    let p := statClicks ls
    (l.clickCount + p.1, (if 0 < l.clickCount then 1 else 0) + p.2)

/-- Accumulation over all records. -/
def statClicksAll : List TrackingRecord → Nat × Nat
  | [] => (0, 0)
  | r :: rs =>
    let p := statClicks r.links
    let q := statClicksAll rs
    (p.1 + q.1, p.2 + q.2)

/-- The aggregate returned by `getTrackingStats`. -/
structure Stats where
  totalSent : Nat
  totalOpened : Nat
  openRate : ℤ
  totalClicks : Nat
  uniqueClicks : Nat
  records : List TrackingRecord
  deriving Repr

/-- `getTrackingStats` (tracking.service.ts). -/
def getTrackingStats (campaignId : Option String)
    (store : List TrackingRecord) : Stats :=
  let records := filterByCampaign campaignId store
  let totalSent := records.length
  let totalOpened := (records.filter (fun r => 0 < r.openCount)).length
  let openRate : ℤ :=
    if 0 < totalSent then jsRound (((totalOpened : ℚ) / (totalSent : ℚ)) * 100) else 0
  let p := statClicksAll records
  { totalSent := totalSent
    totalOpened := totalOpened
    openRate := openRate
    totalClicks := p.1
    uniqueClicks := p.2
    records := records }

/-! ## Link rewriting and click tracking (tracking.service.ts)

`rewriteLinksForTracking` scans the body with the regex
`href=["']([^"']+)["']` (flags `gi`), skips `mailto:`/`tel:`/`#` targets
and targets containing `/api/track/`, and replaces each remaining match
by `href="base/api/track/click/tok"` with a freshly generated click
token.  Token generation (`crypto.randomBytes`) is modelled by a supply
function `Nat → String` and a counter. -/

/-- The regex quote class `["']`. -/

def isQuote (c : Char) : Bool := c == '"' || c == Char.ofNat 39

/-- One attempted match of `href=["']([^"']+)["']` at the head of `s`
(case-insensitive on `href=`).  Returns the matched text (original
casing), the captured URL, and the remainder of `s` after the match. -/
def matchHref (s : List Char) : Option (List Char × List Char × List Char) :=
  if ciPrefix "href=".data s then
    match List.drop 5 s with
    | q1 :: r2 =>
      if isQuote q1 then
        let url := r2.takeWhile (fun c => !(isQuote c))
        if url.isEmpty then none
        else
          match List.drop url.length r2 with
          | q2 :: r3 =>
            if isQuote q2 then some (List.take (url.length + 7) s, url, r3)
            else none
          | [] => none
      else none
    | [] => none
  else none

/-- The exclusion checks of `rewriteLinksForTracking`: `mailto:`,
`tel:`, in-page anchors, and already-generated tracking URLs. -/
def skipUrl (url : List Char) : Bool :=
  "mailto:".data.isPrefixOf url || "tel:".data.isPrefixOf url ||
    "#".data.isPrefixOf url || containsSub "/api/track/".data url

/-- Path prefix of generated click-tracking URLs. -/
def clickPath : List Char := "/api/track/click/".data

/-- The scanning/replacing loop of `emailBody.replace(linkRegex, cb)`:
leftmost match, callback decides skip or rewrite, scan resumes after the
matched source text.  Minted `(clickToken, originalUrl)` pairs are
accumulated in match order; `k` indexes the token supply.  `fuel` bounds
the scanning steps; each step consumes at least one character. -/
def rewriteGoF (base : List Char) (supply : Nat → String) :
    Nat → Nat → List Char → List Char × List (String × List Char) × Nat
  | _, k, [] => ([], [], k)
  | 0, k, s => (s, [], k)
  | f + 1, k, c :: cs =>
    match matchHref (c :: cs) with
    | some (orig, url, rest) =>
      if skipUrl url then
        let p := rewriteGoF base supply f k rest
        (orig ++ p.1, p.2.1, p.2.2)
      else
        let tok := supply k
        let p := rewriteGoF base supply f (k + 1) rest
        ("href=".data ++ '"' :: (base ++ clickPath ++ tok.data ++ ['"']) ++ p.1,
          (tok, url) :: p.2.1, p.2.2)
    | none =>
      let p := rewriteGoF base supply f k cs
      (c :: p.1, p.2.1, p.2.2)

/-- The body-rewriting pass (fuel instantiated). -/
def rewriteLinks (base : List Char) (supply : Nat → String) (k : Nat)
    (s : List Char) : List Char × List (String × List Char) × Nat :=
  rewriteGoF base supply s.length k s

/-- A freshly stored link mapping: `links.map(l => ({...l, clickCount: 0}))`. -/
def mkLinkRecord (p : String × List Char) : LinkRecord :=
  { clickToken := p.1, originalUrl := String.mk p.2, clickCount := 0,
    firstClickedAt := none, lastClickedAt := none }

/-- Store update at the record found by `findIndex` on `trackingToken`:
that record's `links` array is *replaced* by the new list. -/
def setLinks (token : String) (ls : List LinkRecord) :
    List TrackingRecord → List TrackingRecord
  | [] => []
  | r :: rs =>
    if r.trackingToken == token then { r with links := ls } :: rs
    else r :: setLinks token ls rs

/-- `rewriteLinksForTracking` (tracking.service.ts): rewrite the body,
then — only when at least one link was minted — look up the tracking
record and persist the mappings; an unknown token means no save at all.
Returns (rewritten body, minted links, next supply index, new store). -/
def rewriteLinksForTracking (emailBody : List Char) (trackingToken : String)
    (base : List Char) (supply : Nat → String) (k : Nat)
    (store : List TrackingRecord) :
    List Char × List (String × List Char) × Nat × List TrackingRecord :=
  let p := rewriteLinks base supply k emailBody
  let store' :=
    if p.2.1.isEmpty then store
    else setLinks trackingToken (p.2.1.map mkLinkRecord) store
  (p.1, p.2.1, p.2.2, store')

/-- The in-place mutation `recordLinkClick` performs on the link it
finds. -/
def updClick (now : String) (l : LinkRecord) : LinkRecord :=
  { l with
    clickCount := l.clickCount + 1
    lastClickedAt := some now
    firstClickedAt := if strTruthy l.firstClickedAt then l.firstClickedAt else some now }

/-- `findIndex` over one record's links: the first link with the given
click token is updated; its original URL is returned. -/
def clickInLinks (token now : String) :
    List LinkRecord → Option (String × List LinkRecord)
  | [] => none
  | l :: ls =>
    if l.clickToken == token then some (l.originalUrl, updClick now l :: ls)
    else
      match clickInLinks token now ls with
      | some p => some (p.1, l :: p.2)
      | none => none

/-- `recordLinkClick` (tracking.service.ts): scan records in order for a
link with the given click token; update the first hit and return its
original URL; return `null` leaving the store unchanged when no record
holds the token.  (The `userAgent`/`ipAddress` arguments of the source
function are never used by its body and are omitted.) -/
def recordLinkClick (token now : String) :
    List TrackingRecord → Option String × List TrackingRecord
  | [] => (none, [])
  | r :: rs =>
    match clickInLinks token now r.links with
    | some p => (some p.1, { r with links := p.2 } :: rs)
    | none =>
      let q := recordLinkClick token now rs
      (q.1, r :: q.2)

/-- A minimal tracking record used by concrete witnesses. -/
def sampleRecord (token : String) : TrackingRecord :=
  { id := "i0", trackingToken := token, recipientEmail := "z@b.c",
    subject := none, campaignId := none, openCount := 0,
    firstOpenedAt := none, lastOpenedAt := none, userAgent := none,
    ipAddress := none, links := [], createdAt := "c" }

/-! ## Transport pool (email.service.ts, pooled `EmailService`)

`getTransporter` caches at most one nodemailer transporter per sender
email in a `Map` keyed by the address; `sendEmail` acquires it and
transmits.  Network behaviour — `transporter.verify()` outcomes,
error messages, `sendMail` outcomes and `Date.now()` — is supplied by an
environment of oracles indexed by call number.  Transporter objects are
represented by numeric connection ids. -/

/-- A cached transporter entry (`CachedTransporter` in the source). -/

structure CachedTransporter where
  connId : Nat
  lastUsed : Nat
  verified : Bool
  deriving Repr, DecidableEq

/-- An attachment as handed to `sendMail`.  The `Buffer.from(content,
'base64')` decoding is kept opaque: no claim concerns the byte
content. -/
structure Attachment where
  filename : String
  content : String
  deriving Repr, DecidableEq

/-- The message options given to `sendMail` (`from`/`to` are renamed
`fromAddr`/`toAddr`; both are Lean keywords). -/
structure EmailOptions where
  fromAddr : String
  toAddr : String
  subject : String
  html : List Char
  attachments : List Attachment
  deriving Repr, DecidableEq

/-- Sender credential (`SMTPConfig` in the source). -/
structure SMTPConfig where
  email : String
  appPassword : String
  deriving Repr, DecidableEq

/-- nodemailer error codes distinguished by `sendEmail`'s catch. -/
inductive ErrCode where
  | eauth
  | esocket
  | econnection
  | eother
  deriving Repr, DecidableEq

/-- A transport-level error surfaced by `sendMail`. -/
structure SendErr where
  code : ErrCode
  msg : String
  deriving Repr, DecidableEq

/-- `AppError` (middleware/errorHandler): message plus HTTP status. -/
structure AppError where
  msg : String
  status : Nat
  deriving Repr, DecidableEq

/-- Mutable state of the `EmailService` singleton, plus instrumentation:
`verifyCalls`/`sendCalls` count the network calls made so far,
`closed` records ids of transporters that were `close()`d, and `msgs`
records every message actually handed to `sendMail`. -/
structure EmailSvcState where
  cache : List (String × CachedTransporter)
  nextConnId : Nat
  verifyCalls : Nat
  sendCalls : Nat
  closed : List Nat
  msgs : List EmailOptions
  deriving Repr, DecidableEq

/-- Oracles for everything the service observes from outside:
`verOk n`/`verMsg n` the outcome and failure message of the `n`-th
`verify()` call, `sendRes n` the outcome of the `n`-th `sendMail` call,
`timeOf i` the value of `Date.now()` during recipient `i`. -/
structure Env where
  verOk : Nat → Bool
  verMsg : Nat → String
  sendRes : Nat → Option SendErr
  timeOf : Nat → Nat

/-- `CACHE_TTL = 30 * 60 * 1000` (30 minutes, in ms). -/
def CACHE_TTL : Nat := 30 * 60 * 1000

/-- Map lookup by sender email (`Map.get`). -/
def alookup (k : String) (m : List (String × CachedTransporter)) :
    Option CachedTransporter :=
  (m.find? (fun p => p.1 == k)).map (·.2)

/-- Map removal (`Map.delete`). -/
def adel (k : String) (m : List (String × CachedTransporter)) :
    List (String × CachedTransporter) :=
  m.filter (fun p => !(p.1 == k))

/-- Map insertion/overwrite (`Map.set`). -/
def aset (k : String) (v : CachedTransporter)
    (m : List (String × CachedTransporter)) :
    List (String × CachedTransporter) :=
  (k, v) :: adel k m

/-- The shared tail of `getTransporter`: create a transporter
(`nodemailer.createTransport`), verify it once, cache it only on
success; a verification failure raises
`AppError('SMTP authentication failed: …', 401)` and caches nothing. -/
def createAndVerify (env : Env) (cfg : SMTPConfig) (now : Nat)
    (st : EmailSvcState) : Except AppError Nat × EmailSvcState :=
  let connId := st.nextConnId
  let n := st.verifyCalls
  let st₁ := { st with nextConnId := st.nextConnId + 1,
                       verifyCalls := st.verifyCalls + 1 }
  if env.verOk n then
    (.ok connId,
      { st₁ with cache := aset cfg.email ⟨connId, now, true⟩ st₁.cache })
  else
    (.error ⟨"SMTP authentication failed: " ++ env.verMsg n, 401⟩, st₁)

/-- `EmailService.getTransporter`: return the cached transporter when it
is verified and younger than the TTL (refreshing `lastUsed`); otherwise
close and discard any stale entry and create/verify/cache a fresh
one. -/
def getTransporter (env : Env) (cfg : SMTPConfig) (now : Nat)
    (st : EmailSvcState) : Except AppError Nat × EmailSvcState :=
  match alookup cfg.email st.cache with
  | some c =>
    if c.verified ∧ now - c.lastUsed < CACHE_TTL then
      (.ok c.connId,
        { st with cache := aset cfg.email { c with lastUsed := now } st.cache })
    else
      createAndVerify env cfg now
        { st with closed := st.closed ++ [c.connId],
                  cache := adel cfg.email st.cache }
  | none => createAndVerify env cfg now st

/-- The error mapping of `sendEmail`'s catch for `sendMail` failures:
`EAUTH`/`Invalid login` → 401, `ESOCKET`/`ECONNECTION` → 503, anything
else → 500. -/
def mapSendErr (e : SendErr) : AppError :=
  if e.code = .eauth ∨ containsSub "Invalid login".data e.msg.data then
    ⟨"Gmail authentication failed. Please check your App Password.", 401⟩
  else if e.code = .esocket ∨ e.code = .econnection then
    ⟨"Unable to connect to Gmail. Please check your internet connection.", 503⟩
  else
    ⟨"Email sending failed: " ++ e.msg, 500⟩

/-- `EmailService.sendEmail`: acquire the pooled transporter, hand the
message to `sendMail`, and on failure evict the cached entry when the
error code is `EAUTH` before mapping the error.  An `AppError` escaping
`getTransporter` has no `code` (so no eviction) and is re-raised — after
the catch's first branch, which re-labels any error whose message
contains `Invalid login`. -/
def sendEmail (env : Env) (cfg : SMTPConfig) (opts : EmailOptions) (now : Nat)
    (st : EmailSvcState) : Except AppError Unit × EmailSvcState :=
  match getTransporter env cfg now st with
  | (.error e, st') =>
    if containsSub "Invalid login".data e.msg.data then
      (.error ⟨"Gmail authentication failed. Please check your App Password.", 401⟩,
        st')
    else (.error e, st')
  | (.ok _, st') =>
    let n := st'.sendCalls
    let st₂ := { st' with sendCalls := n + 1, msgs := st'.msgs ++ [opts] }
    match env.sendRes n with
    | none => (.ok (), st₂)
    | some err =>
      let st₃ :=
        if err.code = .eauth then { st₂ with cache := adel cfg.email st₂.cache }
        else st₂
      (.error (mapSendErr err), st₃)

/-! ## Dispatch orchestrator (campaign.controller.ts `sendCampaign`)

Credential resolution is the external collaborator of spec §6 and is
not modelled: the resolved `SMTPConfig` is an input.  Note that the
dispatch loop performs *no* tracking calls: it personalizes, sends and
records the outcome. -/

/-- Per-recipient delivery status. -/

inductive SendStatus where
  | sent
  | failed
  deriving Repr, DecidableEq

/-- One entry of the `results` array. -/
structure Outcome where
  email : String
  status : SendStatus
  error : Option String
  deriving Repr, DecidableEq

/-- The response assembled at the end of `sendCampaign` (`summary`
fields inlined), extended with the delay trace (arguments of the
`setTimeout` sleeps, in ms, in order) and the final service state. -/
structure CampaignResponse where
  message : String
  results : List Outcome
  total : Nat
  sent : Nat
  failed : Nat
  delays : List Nat
  finalState : EmailSvcState
  deriving Repr, DecidableEq

/-- The message built for one recipient: personalized subject and body
(the body is sent exactly as personalized — the loop performs no
tracking-pixel injection and no link rewriting), with the request's
attachments. -/
def mkOpts (cfg : SMTPConfig) (subject body : List Char)
    (atts : List Attachment) (r : Recipient) : EmailOptions :=
  { fromAddr := cfg.email, toAddr := r.email,
    subject := String.mk (personalizeContent subject (mkData r)),
    html := personalizeContent body (mkData r), attachments := atts }

/-- The `for` loop of `sendCampaign`: `i` is the loop index, `n` the
full recipient count, `bs`/`bd` the batch size and batch delay
(seconds).  Each iteration personalizes subject and body, attempts the
send (errors are caught and recorded — the loop always continues), and
sleeps `bd*1000` ms after a full batch when recipients remain, else
300 ms between consecutive sends, and nothing after the last one. -/
def runLoop (env : Env) (cfg : SMTPConfig) (subject body : List Char)
    (atts : List Attachment) (n bs bd : Nat) :
    Nat → List Recipient → EmailSvcState →
      List Outcome × List Nat × EmailSvcState
  | _, [], st => ([], [], st)
  | i, r :: rs, st =>
    let p := sendEmail env cfg (mkOpts cfg subject body atts r) (env.timeOf i) st
    let outcome : Outcome :=
      match p.1 with
      | .ok _ => { email := r.email, status := .sent, error := none }
      | .error e =>
        { email := r.email, status := .failed,
          error := some (if e.msg = "" then "Unknown error" else e.msg) }
    let ds : List Nat :=
      if (i + 1) % bs = 0 ∧ i < n - 1 then [bd * 1000]
      else if i < n - 1 then [300] else []
    let q := runLoop env cfg subject body atts n bs bd (i + 1) rs p.2
    (outcome :: q.1, ds ++ q.2.1, q.2.2)

/-- `sendCampaign` (campaign.controller.ts): validate — no recipients,
or an empty subject or body, fail fast with a 400 before any network
activity — then drive the loop and assemble the summary. -/
def sendCampaign (env : Env) (cfg : SMTPConfig) (subject body : List Char)
    (atts : List Attachment) (recipients : List Recipient) (bs bd : Nat)
    (st : EmailSvcState) : Except AppError CampaignResponse :=
  if recipients.isEmpty then .error ⟨"No recipients provided", 400⟩
  else if subject.isEmpty || body.isEmpty then
    .error ⟨"Subject and body are required", 400⟩
  else
    let t := runLoop env cfg subject body atts recipients.length bs bd 0
      recipients st
    let sentCount := t.1.countP (fun o => o.status == SendStatus.sent)
    let failedCount := t.1.countP (fun o => o.status == SendStatus.failed)
    .ok { message := "Campaign sent: " ++ toString sentCount ++ " succeeded, " ++
            toString failedCount ++ " failed",
          results := t.1, total := recipients.length, sent := sentCount,
          failed := failedCount, delays := t.2.1, finalState := t.2.2 }

/-- Environment where every verification succeeds and every send
succeeds. -/
def envAllOk : Env :=
  { verOk := fun _ => true, verMsg := fun _ => "",
    sendRes := fun _ => none, timeOf := fun _ => 0 }

/-- Environment where every verification fails (bad credential). -/
def envAuthFail : Env :=
  { verOk := fun _ => false, verMsg := fun _ => "bad",
    sendRes := fun _ => none, timeOf := fun _ => 0 }

/-- Environment where verification succeeds but every `sendMail` fails
with `EAUTH`. -/
def envEauthSend : Env :=
  { verOk := fun _ => true, verMsg := fun _ => "",
    sendRes := fun _ => some ⟨.eauth, "bad"⟩, timeOf := fun _ => 0 }

/-- A concrete sender credential. -/
def cfg0 : SMTPConfig := ⟨"me@x.com", "pw"⟩

/-- The pristine service state (fresh singleton). -/
def st0 : EmailSvcState :=
  { cache := [], nextConnId := 0, verifyCalls := 0, sendCalls := 0,
    closed := [], msgs := [] }

/-- A service state with one verified transporter cached for `cfg0`. -/
def st1 : EmailSvcState :=
  { cache := [("me@x.com", ⟨7, 0, true⟩)], nextConnId := 8, verifyCalls := 3,
    sendCalls := 0, closed := [], msgs := [] }

/-- A concrete message. -/
def opts0 : EmailOptions :=
  { fromAddr := "me@x.com", toAddr := "a@b.c", subject := "S",
    html := "B".data, attachments := [] }

/-- The pool invariant: at most one cached entry per sender email. -/
def atMostOne (m : List (String × CachedTransporter)) : Prop :=
  ∀ k : String, m.countP (fun p => p.1 == k) ≤ 1

theorem replaceCIF_fuel_irrel (pat rep : List Char) :
    ∀ (f g : Nat) (s : List Char), s.length ≤ f → s.length ≤ g →
      replaceCIF pat rep f s = replaceCIF pat rep g s := by
  intro f
  induction f with
  | zero =>
    intro g s hf _
    have hs : s = [] := List.eq_nil_of_length_eq_zero (Nat.le_zero.mp hf)
    subst hs
    cases g <;> rfl
  | succ f ih =>
    intro g s hf hg
    cases s with
    | nil => cases g <;> rfl
    | cons c cs =>
      cases g with
      | zero => exact absurd hg (by simp)
      | succ g =>
        simp only [replaceCIF]
        by_cases hc : (!pat.isEmpty && ciPrefix pat (c :: cs)) = true
        · rw [if_pos hc, if_pos hc]
          have hlen : (List.drop (pat.length - 1) cs).length ≤ cs.length := by
            rw [List.length_drop]; omega
          have hf' : (List.drop (pat.length - 1) cs).length ≤ f :=
            le_trans hlen (Nat.le_of_succ_le_succ (by simpa using hf))
          have hg' : (List.drop (pat.length - 1) cs).length ≤ g :=
            le_trans hlen (Nat.le_of_succ_le_succ (by simpa using hg))
          rw [ih g _ hf' hg']
        · rw [if_neg hc, if_neg hc]
          rw [ih g cs (Nat.le_of_succ_le_succ (by simpa using hf))
            (Nat.le_of_succ_le_succ (by simpa using hg))]

theorem replaceCIF_eq_replaceCI (pat rep : List Char) (f : Nat) (s : List Char)
    (h : s.length ≤ f) : replaceCIF pat rep f s = replaceCI pat rep s :=
  replaceCIF_fuel_irrel pat rep f s.length s h le_rfl

/-- Scanning skips over a segment containing no character CI-equal to the
pattern head. -/
theorem replaceCI_skip (p₀ : Char) (ps rep : List Char) :
    ∀ (u rest : List Char), noCI p₀ u = true →
      replaceCI (p₀ :: ps) rep (u ++ rest) =
        u ++ replaceCI (p₀ :: ps) rep rest := by
  intro u
  induction u with
  | nil => intro rest _; simp
  | cons c u ih =>
    intro rest hu
    have hcu := hu
    simp only [noCI, List.all_cons, Bool.and_eq_true] at hcu
    have hc : lowEq p₀ c = false := by simpa using hcu.1
    have hu' : noCI p₀ u = true := hcu.2
    show replaceCIF (p₀ :: ps) rep (c :: (u ++ rest)).length (c :: (u ++ rest)) =
      (c :: u) ++ replaceCI (p₀ :: ps) rep rest
    simp only [List.length_cons, replaceCIF]
    have hpre : ciPrefix (p₀ :: ps) (c :: (u ++ rest)) = false := by
      simp [ciPrefix, hc]
    simp only [hpre, Bool.and_false, Bool.false_eq_true, if_false]
    have : replaceCIF (p₀ :: ps) rep (u ++ rest).length (u ++ rest) =
        u ++ replaceCI (p₀ :: ps) rep rest := ih rest hu'
    simpa [replaceCI] using this

theorem ciPrefix_append_of_full (pat occ rest : List Char)
    (hp : ciPrefix pat occ = true) (hl : occ.length = pat.length) :
    ciPrefix pat (occ ++ rest) = true := by
  induction pat generalizing occ with
  | nil => rfl
  | cons p ps ih =>
    cases occ with
    | nil => simp at hl
    | cons o os =>
      simp only [ciPrefix, Bool.and_eq_true] at hp
      simp only [List.cons_append, ciPrefix, hp.1, Bool.true_and]
      exact ih os hp.2 (by simpa using hl)

/-- A full case-insensitive occurrence of the pattern is replaced, and the
scan resumes after it. -/
theorem replaceCI_match (p₀ : Char) (ps rep : List Char) (u occ rest : List Char)
    (hu : noCI p₀ u = true) (hp : ciPrefix (p₀ :: ps) occ = true)
    (hl : occ.length = (p₀ :: ps).length) :
    replaceCI (p₀ :: ps) rep (u ++ (occ ++ rest)) =
      u ++ (rep ++ replaceCI (p₀ :: ps) rep rest) := by
  rw [replaceCI_skip p₀ ps rep u (occ ++ rest) hu]
  congr 1
  cases occ with
  | nil => simp at hl
  | cons o os =>
    show replaceCIF (p₀ :: ps) rep (o :: (os ++ rest)).length (o :: (os ++ rest)) =
      rep ++ replaceCI (p₀ :: ps) rep rest
    simp only [List.length_cons, replaceCIF]
    have hpre : ciPrefix (p₀ :: ps) ((o :: os) ++ rest) = true :=
      ciPrefix_append_of_full _ _ _ hp hl
    simp only [List.cons_append] at hpre
    simp only [List.isEmpty_cons, Bool.not_false, hpre, Bool.and_self, if_pos]
    have hos : os.length = ps.length := by simpa using hl
    have hdrop : List.drop (ps.length + 1 - 1) (os ++ rest) = rest := by
      rw [Nat.add_sub_cancel, ← hos]
      exact List.drop_left os rest
    rw [hdrop]
    congr 1
    exact replaceCIF_eq_replaceCI _ _ _ _ (by simp)

/-- `replaceCI_match` with an empty left context. -/
theorem replaceCI_match0 (p₀ : Char) (ps rep : List Char) (occ rest : List Char)
    (hp : ciPrefix (p₀ :: ps) occ = true)
    (hl : occ.length = (p₀ :: ps).length) :
    replaceCI (p₀ :: ps) rep (occ ++ rest) =
      rep ++ replaceCI (p₀ :: ps) rep rest := by
  have := replaceCI_match p₀ ps rep [] occ rest rfl hp hl
  simpa using this

theorem ciStops_not_ciPrefix (pat occ : List Char) (h : ciStops pat occ = true) :
    ∀ rest, ciPrefix pat (occ ++ rest) = false := by
  induction pat generalizing occ with
  | nil => cases occ <;> simp [ciStops] at h
  | cons p ps ih =>
    cases occ with
    | nil => simp [ciStops] at h
    | cons o os =>
      intro rest
      simp only [ciStops, Bool.or_eq_true, Bool.not_eq_true'] at h
      rcases h with h | h
      · simp [ciPrefix, h]
      · simp [ciPrefix, ih os h rest]

/-- An occurrence of a *different* braced token is scanned over
unchanged: the pattern fails to match at its head, and no new match can
start inside its tail. -/
theorem replaceCI_other (p₀ : Char) (ps rep : List Char) (o₀ : Char)
    (os rest : List Char) (hstop : ciStops (p₀ :: ps) (o₀ :: os) = true)
    (htail : noCI p₀ os = true) :
    replaceCI (p₀ :: ps) rep ((o₀ :: os) ++ rest) =
      (o₀ :: os) ++ replaceCI (p₀ :: ps) rep rest := by
  show replaceCIF (p₀ :: ps) rep (o₀ :: (os ++ rest)).length (o₀ :: (os ++ rest)) =
    (o₀ :: os) ++ replaceCI (p₀ :: ps) rep rest
  simp only [List.length_cons, replaceCIF]
  have hpre : ciPrefix (p₀ :: ps) ((o₀ :: os) ++ rest) = false :=
    ciStops_not_ciPrefix _ _ hstop rest
  simp only [List.cons_append] at hpre
  simp only [hpre, Bool.and_false, Bool.false_eq_true, if_false]
  have : replaceCIF (p₀ :: ps) rep (os ++ rest).length (os ++ rest) =
      os ++ replaceCI (p₀ :: ps) rep rest := replaceCI_skip p₀ ps rep os rest htail
  simpa [replaceCI] using this

/-- A segment with no character CI-equal to the pattern head is left
unchanged by a whole pass. -/
theorem replaceCI_all_skip (p₀ : Char) (ps rep u : List Char)
    (hu : noCI p₀ u = true) : replaceCI (p₀ :: ps) rep u = u := by
  have hnil : replaceCI (p₀ :: ps) rep [] = [] := rfl
  have := replaceCI_skip p₀ ps rep u [] hu
  simpa [hnil] using this

/-- Claim C5, as stated, is false on the code: `sendCampaign` passes only
`fullName`, `companyName` and `jobTitle` to `personalizeContent`, so the
`\x7bemail\x7d` placeholder is neither replaced by the recipient's email
nor by the empty string — it survives verbatim in the output. -/
theorem C5_counterexample :
    personalizeContent "{email}".data
        (mkData ⟨"bob@x.com", "Bob", "Acme", none⟩) = "{email}".data ∧
      "{email}".data ≠ "bob@x.com".data ∧ "{email}".data ≠ ([] : List Char) := by
  refine ⟨by decide, by decide, by decide⟩

/-- Claim C5 (amended): `personalizeContent` replaces every occurrence —
not just the first — of each placeholder whose key is present in the
field map (`fullName`, `companyName`, `jobTitle` as called from
`sendCampaign`), case-insensitively, with the field value; an *unset*
field (`jobTitle` missing from the recipient) substitutes to the empty
string; a placeholder whose key is absent from the map — in particular
`\x7bemail\x7d` — passes through unchanged; and the function is total (it
never raises).  Segments and values are assumed brace-free, which is what
rules out a replacement value re-triggering a later pass. -/
theorem C5_personalize_amended (r : Recipient) (u v w x z y : List Char)
    (hu : noCI '{' u = true) (hv : noCI '{' v = true) (hw : noCI '{' w = true)
    (hx : noCI '{' x = true) (hz : noCI '{' z = true) (hy : noCI '{' y = true)
    (hfn : noCI '{' r.fullName.data = true)
    (hcn : noCI '{' r.companyName.data = true) :
    personalizeContent
        (u ++ ("{fullName}".data ++ (v ++ ("{FULLNAME}".data ++
          (w ++ ("{companyName}".data ++ (x ++ ("{jobTitle}".data ++
            (z ++ ("{email}".data ++ y)))))))))) (mkData r) =
      u ++ (r.fullName.data ++ (v ++ (r.fullName.data ++
        (w ++ (r.companyName.data ++ (x ++ ((r.jobTitle.getD "").data ++
          (z ++ ("{email}".data ++ y))))))))) := by
  have eFN : "{fullName}".data = '{' :: ("fullName".data ++ ['}']) := rfl
  have eFN2 : "{FULLNAME}".data = '{' :: ("FULLNAME".data ++ ['}']) := rfl
  have eCN : "{companyName}".data = '{' :: ("companyName".data ++ ['}']) := rfl
  have eJT : "{jobTitle}".data = '{' :: ("jobTitle".data ++ ['}']) := rfl
  have eEM : "{email}".data = '{' :: ("email".data ++ ['}']) := rfl
  show replaceCI ('{' :: ("jobTitle".data ++ ['}'])) ((r.jobTitle.getD "").data)
      (replaceCI ('{' :: ("companyName".data ++ ['}'])) r.companyName.data
        (replaceCI ('{' :: ("fullName".data ++ ['}'])) r.fullName.data
          (u ++ ("{fullName}".data ++ (v ++ ("{FULLNAME}".data ++
            (w ++ ("{companyName}".data ++ (x ++ ("{jobTitle}".data ++
              (z ++ ("{email}".data ++ y)))))))))))) = _
  rw [eFN, eFN2, eCN, eJT, eEM]
  -- pass 1: key `fullName`
  rw [replaceCI_match '{' ("fullName".data ++ ['}']) r.fullName.data u
        ('{' :: ("fullName".data ++ ['}'])) _ hu (by decide) (by decide),
      replaceCI_match '{' ("fullName".data ++ ['}']) r.fullName.data v
        ('{' :: ("FULLNAME".data ++ ['}'])) _ hv (by decide) (by decide),
      replaceCI_skip '{' ("fullName".data ++ ['}']) r.fullName.data w _ hw,
      replaceCI_other '{' ("fullName".data ++ ['}']) r.fullName.data '{'
        ("companyName".data ++ ['}']) _ (by decide) (by decide),
      replaceCI_skip '{' ("fullName".data ++ ['}']) r.fullName.data x _ hx,
      replaceCI_other '{' ("fullName".data ++ ['}']) r.fullName.data '{'
        ("jobTitle".data ++ ['}']) _ (by decide) (by decide),
      replaceCI_skip '{' ("fullName".data ++ ['}']) r.fullName.data z _ hz,
      replaceCI_other '{' ("fullName".data ++ ['}']) r.fullName.data '{'
        ("email".data ++ ['}']) _ (by decide) (by decide),
      replaceCI_all_skip '{' ("fullName".data ++ ['}']) r.fullName.data y hy]
  -- pass 2: key `companyName`
  rw [replaceCI_skip '{' ("companyName".data ++ ['}']) r.companyName.data u _ hu,
      replaceCI_skip '{' ("companyName".data ++ ['}']) r.companyName.data
        r.fullName.data _ hfn,
      replaceCI_skip '{' ("companyName".data ++ ['}']) r.companyName.data v _ hv,
      replaceCI_skip '{' ("companyName".data ++ ['}']) r.companyName.data
        r.fullName.data _ hfn,
      replaceCI_skip '{' ("companyName".data ++ ['}']) r.companyName.data w _ hw,
      replaceCI_match0 '{' ("companyName".data ++ ['}']) r.companyName.data
        ('{' :: ("companyName".data ++ ['}'])) _ (by decide) (by decide),
      replaceCI_skip '{' ("companyName".data ++ ['}']) r.companyName.data x _ hx,
      replaceCI_other '{' ("companyName".data ++ ['}']) r.companyName.data '{'
        ("jobTitle".data ++ ['}']) _ (by decide) (by decide),
      replaceCI_skip '{' ("companyName".data ++ ['}']) r.companyName.data z _ hz,
      replaceCI_other '{' ("companyName".data ++ ['}']) r.companyName.data '{'
        ("email".data ++ ['}']) _ (by decide) (by decide),
      replaceCI_all_skip '{' ("companyName".data ++ ['}']) r.companyName.data y hy]
  -- pass 3: key `jobTitle`
  rw [replaceCI_skip '{' ("jobTitle".data ++ ['}']) ((r.jobTitle.getD "").data) u _ hu,
      replaceCI_skip '{' ("jobTitle".data ++ ['}']) ((r.jobTitle.getD "").data)
        r.fullName.data _ hfn,
      replaceCI_skip '{' ("jobTitle".data ++ ['}']) ((r.jobTitle.getD "").data) v _ hv,
      replaceCI_skip '{' ("jobTitle".data ++ ['}']) ((r.jobTitle.getD "").data)
        r.fullName.data _ hfn,
      replaceCI_skip '{' ("jobTitle".data ++ ['}']) ((r.jobTitle.getD "").data) w _ hw,
      replaceCI_skip '{' ("jobTitle".data ++ ['}']) ((r.jobTitle.getD "").data)
        r.companyName.data _ hcn,
      replaceCI_skip '{' ("jobTitle".data ++ ['}']) ((r.jobTitle.getD "").data) x _ hx,
      replaceCI_match0 '{' ("jobTitle".data ++ ['}']) ((r.jobTitle.getD "").data)
        ('{' :: ("jobTitle".data ++ ['}'])) _ (by decide) (by decide),
      replaceCI_skip '{' ("jobTitle".data ++ ['}']) ((r.jobTitle.getD "").data) z _ hz,
      replaceCI_other '{' ("jobTitle".data ++ ['}']) ((r.jobTitle.getD "").data) '{'
        ("email".data ++ ['}']) _ (by decide) (by decide),
      replaceCI_all_skip '{' ("jobTitle".data ++ ['}']) ((r.jobTitle.getD "").data) y hy]

/-- Witness for the amended C5 at a concrete recipient without a job
title. -/
theorem C5_personalize_amended_witness :
    personalizeContent
        ("Dear ".data ++ ("{fullName}".data ++ (", ".data ++ ("{FULLNAME}".data ++
          (" of ".data ++ ("{companyName}".data ++ (" as ".data ++ ("{jobTitle}".data ++
            (" mail ".data ++ ("{email}".data ++ ".".data))))))))))
        (mkData ⟨"ann@acme.io", "Ann", "Acme", none⟩) =
      "Dear ".data ++ ("Ann".data ++ (", ".data ++ ("Ann".data ++
        (" of ".data ++ ("Acme".data ++ (" as ".data ++ ("".data ++
          (" mail ".data ++ ("{email}".data ++ ".".data))))))))) :=
  C5_personalize_amended ⟨"ann@acme.io", "Ann", "Acme", none⟩
    "Dear ".data ", ".data " of ".data " as ".data " mail ".data ".".data
    (by decide) (by decide) (by decide) (by decide) (by decide) (by decide)
    (by decide) (by decide)

theorem statClicks_snd (ls : List LinkRecord) :
    (statClicks ls).2 = ls.countP (fun l => decide (0 < l.clickCount)) := by
  induction ls with
  | nil => rfl
  | cons l ls ih =>
    simp only [statClicks, List.countP_cons, ih]
    by_cases h : 0 < l.clickCount <;> simp [h, Nat.add_comm]

theorem statClicks_fst (ls : List LinkRecord) :
    (statClicks ls).1 = (ls.map (·.clickCount)).sum := by
  induction ls with
  | nil => rfl
  | cons l ls ih => simp [statClicks, ih]

theorem statClicksAll_snd (rs : List TrackingRecord) :
    (statClicksAll rs).2 =
      (rs.flatMap (·.links)).countP (fun l => decide (0 < l.clickCount)) := by
  induction rs with
  | nil => rfl
  | cons r rs ih =>
    simp [statClicksAll, List.flatMap_cons, List.countP_append, ih, statClicks_snd]

theorem statClicksAll_fst (rs : List TrackingRecord) :
    (statClicksAll rs).1 = ((rs.flatMap (·.links)).map (·.clickCount)).sum := by
  induction rs with
  | nil => rfl
  | cons r rs ih =>
    simp [statClicksAll, List.flatMap_cons, ih, statClicks_fst]

theorem recordEmailOpen_miss (token now : String) (ua ip : Option String)
    (l : List TrackingRecord) (h : ∀ q ∈ l, q.trackingToken ≠ token) :
    recordEmailOpen token now ua ip l = (false, l) := by
  induction l with
  | nil => rfl
  | cons r rs ih =>
    have hr : (r.trackingToken == token) = false := by
      simpa using h r (List.mem_cons_self r rs)
    simp only [recordEmailOpen, hr, Bool.false_eq_true, if_false]
    rw [ih (fun q hq => h q (List.mem_cons_of_mem r hq))]

theorem recordEmailOpen_hit (token now : String) (ua ip : Option String)
    (pre post : List TrackingRecord) (r : TrackingRecord)
    (hpre : ∀ q ∈ pre, q.trackingToken ≠ token) (hr : r.trackingToken = token) :
    recordEmailOpen token now ua ip (pre ++ r :: post) =
      (true, pre ++ updOpen now ua ip r :: post) := by
  induction pre with
  | nil => simp [recordEmailOpen, hr]
  | cons p ps ih =>
    have hp : (p.trackingToken == token) = false := by
      simpa using hpre p (List.mem_cons_self p ps)
    simp only [List.cons_append, recordEmailOpen, hp, Bool.false_eq_true, if_false,
      List.append_eq]
    rw [ih (fun q hq => hpre q (List.mem_cons_of_mem p hq))]

/-- Claim C7: `recordEmailOpen` on an unknown token returns `false` and
leaves the store unchanged (and, being total, never raises); on a known
token it is idempotent with respect to `firstOpenedAt` — set on the first
successful call (when previously unset) and unchanged by a second call —
but not with respect to `openCount` (which grows by one per call, so by
two over two calls) or `lastOpenedAt` (which always moves to the current
call's timestamp). -/
theorem C7_recordOpen (token t1 t2 : String) (ua1 ua2 ip1 ip2 : Option String)
    (store pre post : List TrackingRecord) (r : TrackingRecord) :
    ((∀ q ∈ store, q.trackingToken ≠ token) →
      recordEmailOpen token t1 ua1 ip1 store = (false, store)) ∧
    ((∀ q ∈ pre, q.trackingToken ≠ token) → r.trackingToken = token → t1 ≠ "" →
      recordEmailOpen token t1 ua1 ip1 (pre ++ r :: post) =
        (true, pre ++ updOpen t1 ua1 ip1 r :: post) ∧
      recordEmailOpen token t2 ua2 ip2 (pre ++ updOpen t1 ua1 ip1 r :: post) =
        (true, pre ++ updOpen t2 ua2 ip2 (updOpen t1 ua1 ip1 r) :: post) ∧
      (updOpen t2 ua2 ip2 (updOpen t1 ua1 ip1 r)).firstOpenedAt =
        (updOpen t1 ua1 ip1 r).firstOpenedAt ∧
      (updOpen t2 ua2 ip2 (updOpen t1 ua1 ip1 r)).openCount = r.openCount + 2 ∧
      (updOpen t2 ua2 ip2 (updOpen t1 ua1 ip1 r)).lastOpenedAt = some t2 ∧
      (r.firstOpenedAt = none → (updOpen t1 ua1 ip1 r).firstOpenedAt = some t1)) := by
  constructor
  · intro h
    exact recordEmailOpen_miss token t1 ua1 ip1 store h
  · intro hpre hr ht1
    have hr' : (updOpen t1 ua1 ip1 r).trackingToken = token := hr
    refine ⟨recordEmailOpen_hit token t1 ua1 ip1 pre post r hpre hr,
      recordEmailOpen_hit token t2 ua2 ip2 pre post _ hpre hr', ?_, ?_, ?_, ?_⟩
    · show (if strTruthy (updOpen t1 ua1 ip1 r).firstOpenedAt then
          (updOpen t1 ua1 ip1 r).firstOpenedAt else some t2) =
        (updOpen t1 ua1 ip1 r).firstOpenedAt
      by_cases hf : strTruthy r.firstOpenedAt = true
      · simp [updOpen, hf]
      · simp only [Bool.not_eq_true] at hf
        have e1 : (updOpen t1 ua1 ip1 r).firstOpenedAt = some t1 := by
          simp [updOpen, hf]
        have ht1' : (t1 == "") = false := by simpa using ht1
        rw [e1]
        simp [strTruthy, ht1']
    · rfl
    · rfl
    · intro h0
      simp [updOpen, h0, strTruthy]

/-- Witness for C7 at a concrete store. -/
theorem C7_recordOpen_witness :
    recordEmailOpen "tok" "2024-01-01T00:00:00Z" (some "UA") none
        [{ id := "i1", trackingToken := "other", recipientEmail := "a@b.c",
           subject := none, campaignId := none, openCount := 0,
           firstOpenedAt := none, lastOpenedAt := none, userAgent := none,
           ipAddress := none, links := [], createdAt := "c" }] =
      (false,
        [{ id := "i1", trackingToken := "other", recipientEmail := "a@b.c",
           subject := none, campaignId := none, openCount := 0,
           firstOpenedAt := none, lastOpenedAt := none, userAgent := none,
           ipAddress := none, links := [], createdAt := "c" }]) :=
  (C7_recordOpen "tok" "2024-01-01T00:00:00Z" "t2" (some "UA") none none none
      [{ id := "i1", trackingToken := "other", recipientEmail := "a@b.c",
         subject := none, campaignId := none, openCount := 0,
         firstOpenedAt := none, lastOpenedAt := none, userAgent := none,
         ipAddress := none, links := [], createdAt := "c" }] [] []
      { id := "i0", trackingToken := "tok", recipientEmail := "z@b.c",
        subject := none, campaignId := none, openCount := 0,
        firstOpenedAt := none, lastOpenedAt := none, userAgent := none,
        ipAddress := none, links := [], createdAt := "c" }).1
    (by decide)

/-- Claim C8: `getTrackingStats` computes
`openRate = round(100 * totalOpened / totalSent)` (half-up rounding over
the rationals), returns `openRate = 0` when `totalSent = 0` without any
division by zero, and computes `uniqueClicks` as the number of link
records with `clickCount > 0` — not the raw click volume, which is
`totalClicks`. -/
theorem C8_stats (campaignId : Option String) (store : List TrackingRecord) :
    (getTrackingStats campaignId store).openRate =
      (if (getTrackingStats campaignId store).totalSent = 0 then 0
        else jsRound ((100 * ((getTrackingStats campaignId store).totalOpened : ℚ)) /
          ((getTrackingStats campaignId store).totalSent : ℚ))) ∧
    ((getTrackingStats campaignId store).totalSent = 0 →
      (getTrackingStats campaignId store).openRate = 0) ∧
    (getTrackingStats campaignId store).uniqueClicks =
      (((getTrackingStats campaignId store).records.flatMap (·.links)).countP
        (fun l => decide (0 < l.clickCount))) ∧
    (getTrackingStats campaignId store).totalClicks =
      ((((getTrackingStats campaignId store).records.flatMap (·.links)).map
        (·.clickCount)).sum) := by
  refine ⟨?_, ?_, ?_, ?_⟩
  · show (if 0 < (filterByCampaign campaignId store).length then _ else _) = _
    by_cases h : 0 < (filterByCampaign campaignId store).length
    · have h0 : (filterByCampaign campaignId store).length ≠ 0 := Nat.pos_iff_ne_zero.mp h
      simp only [getTrackingStats, h, if_pos, h0, if_neg, ite_false]
      congr 1
      rw [div_mul_eq_mul_div, mul_comm]
    · have h0 : (filterByCampaign campaignId store).length = 0 := by omega
      simp [getTrackingStats, h0]
  · intro h
    simp only [getTrackingStats] at h ⊢
    simp [h]
  · show (statClicksAll (filterByCampaign campaignId store)).2 = _
    exact statClicksAll_snd _
  · show (statClicksAll (filterByCampaign campaignId store)).1 = _
    exact statClicksAll_fst _

theorem takeWhile_append_stop (p : Char → Bool) (url : List Char) (c : Char)
    (v : List Char) (h : url.all p = true) (hc : p c = false) :
    (url ++ c :: v).takeWhile p = url := by
  induction url with
  | nil => simp [List.takeWhile_cons, hc]
  | cons a url ih =>
    have ha := h
    simp only [List.all_cons, Bool.and_eq_true] at ha
    simp [List.takeWhile_cons, ha.1, ih ha.2]

theorem matchHref_rest_le (s : List Char) (t : List Char × List Char × List Char)
    (h : matchHref s = some t) : t.2.2.length + 1 ≤ s.length := by
  unfold matchHref at h
  split at h
  case isFalse => exact absurd h (by simp)
  case isTrue hci =>
    split at h
    case h_2 => exact absurd h (by simp)
    case h_1 q1 r2 heq =>
      have hlen2 : s.length - 5 = r2.length + 1 := by
        have := congrArg List.length heq
        simpa [List.length_drop] using this
      split at h
      case isFalse => exact absurd h (by simp)
      case isTrue hq1 =>
        simp only [] at h
        split at h
        case isTrue => exact absurd h (by simp)
        case isFalse hne =>
          split at h
          case h_2 => exact absurd h (by simp)
          case h_1 q2 r3 heq2 =>
            split at h
            case isFalse => exact absurd h (by simp)
            case isTrue hq2 =>
              have hlen3 :
                  r2.length - (r2.takeWhile (fun c => !(isQuote c))).length =
                    r3.length + 1 := by
                have := congrArg List.length heq2
                simpa [List.length_drop] using this
              have ht : t.2.2 = r3 := by
                have := h
                injection this with h1
                rw [← h1]
              rw [ht]
              omega

theorem matchHref_none_of_not_h (c : Char) (t : List Char)
    (hc : lowEq 'h' c = false) : matchHref (c :: t) = none := by
  have e : "href=".data = 'h' :: "ref=".data := rfl
  unfold matchHref
  rw [e]
  simp [ciPrefix, hc]

theorem rewriteGoF_fuel_irrel (base : List Char) (supply : Nat → String) :
    ∀ (f g k : Nat) (s : List Char), s.length ≤ f → s.length ≤ g →
      rewriteGoF base supply f k s = rewriteGoF base supply g k s := by
  intro f
  induction f with
  | zero =>
    intro g k s hf _
    have hs : s = [] := List.eq_nil_of_length_eq_zero (Nat.le_zero.mp hf)
    subst hs; cases g <;> rfl
  | succ f ih =>
    intro g k s hf hg
    cases s with
    | nil => cases g <;> rfl
    | cons c cs =>
      cases g with
      | zero => exact absurd hg (by simp)
      | succ g =>
        have hf' : cs.length ≤ f := Nat.le_of_succ_le_succ (by simpa using hf)
        have hg' : cs.length ≤ g := Nat.le_of_succ_le_succ (by simpa using hg)
        simp only [rewriteGoF]
        cases hm : matchHref (c :: cs) with
        | none => rw [ih g k cs hf' hg']
        | some t =>
          obtain ⟨orig, url, rest⟩ := t
          have hrest : rest.length ≤ cs.length := by
            have := matchHref_rest_le (c :: cs) (orig, url, rest) hm
            simpa using this
          by_cases hsk : skipUrl url = true
          · simp only [hsk, if_pos]
            rw [ih g k rest (le_trans hrest hf') (le_trans hrest hg')]
          · simp only [hsk, Bool.false_eq_true, if_false]
            rw [ih g (k + 1) rest (le_trans hrest hf') (le_trans hrest hg')]

theorem rewriteGoF_eq_rewriteLinks (base : List Char) (supply : Nat → String)
    (f k : Nat) (s : List Char) (h : s.length ≤ f) :
    rewriteGoF base supply f k s = rewriteLinks base supply k s :=
  rewriteGoF_fuel_irrel base supply f s.length k s h le_rfl

/-- Scanning skips over a segment containing no character CI-equal to
`h` (so no `href=` match can begin inside it). -/
theorem rewriteLinks_skip (base : List Char) (supply : Nat → String) (k : Nat)
    (u rest : List Char) (hu : noCI 'h' u = true) :
    rewriteLinks base supply k (u ++ rest) =
      (u ++ (rewriteLinks base supply k rest).1,
        (rewriteLinks base supply k rest).2.1,
        (rewriteLinks base supply k rest).2.2) := by
  induction u with
  | nil => simp
  | cons c u ih =>
    have hcu := hu
    simp only [noCI, List.all_cons, Bool.and_eq_true] at hcu
    have hc : lowEq 'h' c = false := by simpa using hcu.1
    have hu' : noCI 'h' u = true := hcu.2
    show rewriteGoF base supply (c :: (u ++ rest)).length k (c :: (u ++ rest)) = _
    simp only [List.length_cons, rewriteGoF, matchHref_none_of_not_h c _ hc]
    rw [show rewriteGoF base supply (u ++ rest).length k (u ++ rest) =
      rewriteLinks base supply k (u ++ rest) from rfl, ih hu']
    rfl

/-- The match of the href regex at an explicitly decomposed occurrence:
`hp` is the literal `href=` text (any casing), `q1`/`q2` the quotes,
`url` the nonempty quote-free target. -/
theorem matchHref_at (hp : List Char) (q1 q2 : Char) (url v : List Char)
    (hhp : ciPrefix "href=".data hp = true) (hl : hp.length = 5)
    (hq1 : isQuote q1 = true) (hq2 : isQuote q2 = true) (hurl : url ≠ [])
    (hnq : url.all (fun c => !(isQuote c)) = true) :
    matchHref (hp ++ (q1 :: (url ++ q2 :: v))) =
      some (hp ++ (q1 :: (url ++ [q2])), url, v) := by
  have e1 : ciPrefix "href=".data (hp ++ (q1 :: (url ++ q2 :: v))) = true :=
    ciPrefix_append_of_full _ _ _ hhp (by rw [hl]; rfl)
  have e2 : List.drop 5 (hp ++ (q1 :: (url ++ q2 :: v))) = q1 :: (url ++ q2 :: v) := by
    rw [← hl]
    exact List.drop_left hp _
  have e3 : (url ++ q2 :: v).takeWhile (fun c => !(isQuote c)) = url :=
    takeWhile_append_stop _ url q2 v hnq (by simp [hq2])
  have e4 : url.isEmpty = false := by
    cases url with
    | nil => exact absurd rfl hurl
    | cons a l => rfl
  have e5 : List.drop url.length (url ++ q2 :: v) = q2 :: v := List.drop_left url _
  have e6 : List.take (url.length + 7) (hp ++ (q1 :: (url ++ q2 :: v))) =
      hp ++ (q1 :: (url ++ [q2])) := by
    have easc : hp ++ (q1 :: (url ++ q2 :: v)) =
        (hp ++ (q1 :: (url ++ [q2]))) ++ v := by
      simp [List.append_assoc]
    rw [easc]
    have hlen : (hp ++ (q1 :: (url ++ [q2]))).length = url.length + 7 := by
      simp [hl]; omega
    rw [← hlen]
    exact List.take_left _ _
  unfold matchHref
  rw [e1, if_pos rfl, e2]
  simp only [e3, e4, Bool.false_eq_true, if_false, e5, hq1, if_pos, e6]
  simp [hq1, hq2]

/-- One scanning step at a regex match, phrased on the wrapper. -/
theorem rewriteLinks_at_href (base : List Char) (supply : Nat → String) (k : Nat)
    (hp : List Char) (q1 q2 : Char) (url v : List Char)
    (hhp : ciPrefix "href=".data hp = true) (hl : hp.length = 5)
    (hq1 : isQuote q1 = true) (hq2 : isQuote q2 = true) (hurl : url ≠ [])
    (hnq : url.all (fun c => !(isQuote c)) = true) :
    rewriteLinks base supply k (hp ++ (q1 :: (url ++ q2 :: v))) =
      (if skipUrl url then
        ((hp ++ (q1 :: (url ++ [q2]))) ++ (rewriteLinks base supply k v).1,
          (rewriteLinks base supply k v).2.1,
          (rewriteLinks base supply k v).2.2)
      else
        ("href=".data ++ '"' :: (base ++ clickPath ++ (supply k).data ++ ['"']) ++
            (rewriteLinks base supply (k + 1) v).1,
          (supply k, url) :: (rewriteLinks base supply (k + 1) v).2.1,
          (rewriteLinks base supply (k + 1) v).2.2)) := by
  have hm := matchHref_at hp q1 q2 url v hhp hl hq1 hq2 hurl hnq
  cases hp with
  | nil => simp at hl
  | cons h₀ hp' =>
    simp only [List.cons_append] at hm ⊢
    show rewriteGoF base supply (h₀ :: (hp' ++ (q1 :: (url ++ q2 :: v)))).length k
      (h₀ :: (hp' ++ (q1 :: (url ++ q2 :: v)))) = _
    simp only [List.length_cons, rewriteGoF, hm]
    have hv : v.length ≤ (hp' ++ (q1 :: (url ++ q2 :: v))).length := by
      simp; omega
    rw [rewriteGoF_eq_rewriteLinks base supply _ k v hv,
      rewriteGoF_eq_rewriteLinks base supply _ (k + 1) v hv]
    by_cases hsk : skipUrl url = true <;> simp [hsk, List.append_assoc]

theorem setLinks_miss (token : String) (ls : List LinkRecord)
    (store : List TrackingRecord) (h : ∀ q ∈ store, q.trackingToken ≠ token) :
    setLinks token ls store = store := by
  induction store with
  | nil => rfl
  | cons r rs ih =>
    have hr : (r.trackingToken == token) = false := by
      simpa using h r (List.mem_cons_self r rs)
    simp only [setLinks, hr, Bool.false_eq_true, if_false]
    rw [ih (fun q hq => h q (List.mem_cons_of_mem r hq))]

theorem setLinks_hit (token : String) (ls : List LinkRecord)
    (pre post : List TrackingRecord) (r : TrackingRecord)
    (hpre : ∀ q ∈ pre, q.trackingToken ≠ token) (hr : r.trackingToken = token) :
    setLinks token ls (pre ++ r :: post) =
      pre ++ { r with links := ls } :: post := by
  induction pre with
  | nil => simp [setLinks, hr]
  | cons p ps ih =>
    have hp : (p.trackingToken == token) = false := by
      simpa using hpre p (List.mem_cons_self p ps)
    simp only [List.cons_append, setLinks, hp, Bool.false_eq_true, if_false,
      List.append_eq]
    rw [ih (fun q hq => hpre q (List.mem_cons_of_mem p hq))]

theorem clickInLinks_miss (token now : String) (ls : List LinkRecord)
    (h : ∀ l ∈ ls, l.clickToken ≠ token) : clickInLinks token now ls = none := by
  induction ls with
  | nil => rfl
  | cons l ls ih =>
    have hl : (l.clickToken == token) = false := by
      simpa using h l (List.mem_cons_self l ls)
    simp only [clickInLinks, hl, Bool.false_eq_true, if_false]
    rw [ih (fun q hq => h q (List.mem_cons_of_mem l hq))]

theorem recordLinkClick_miss (token now : String) (store : List TrackingRecord)
    (h : ∀ q ∈ store, ∀ l ∈ q.links, l.clickToken ≠ token) :
    recordLinkClick token now store = (none, store) := by
  induction store with
  | nil => rfl
  | cons r rs ih =>
    have hr : clickInLinks token now r.links = none :=
      clickInLinks_miss token now r.links (h r (List.mem_cons_self r rs))
    simp only [recordLinkClick, hr]
    rw [ih (fun q hq => h q (List.mem_cons_of_mem r hq))]

/-- Claim C6, as stated, is false on the code: an `href` whose target
contains `/api/track/` starts with none of `mailto:`, `tel:`, `#`, yet
`rewriteLinksForTracking` leaves it unrewritten and mints no link for
it (the already-generated-tracking-URL exclusion the claim omits). -/
theorem C6_counterexample :
    rewriteLinksForTracking
        "<a href=\"https://x.io/api/track/click/t\">c</a>".data "tok"
        "http://localhost:5000".data (fun _ => "tk") 0 [] =
      ("<a href=\"https://x.io/api/track/click/t\">c</a>".data, [], 0, []) ∧
    "mailto:".data.isPrefixOf "https://x.io/api/track/click/t".data = false ∧
    "tel:".data.isPrefixOf "https://x.io/api/track/click/t".data = false ∧
    "#".data.isPrefixOf "https://x.io/api/track/click/t".data = false := by
  refine ⟨by decide, by decide, by decide, by decide⟩

/-- Claim C6 (amended): over an href occurrence `hp q1 url q2` (`hp` the
`href=` text in any casing, `q1`/`q2` the quotes, `url` nonempty and
quote-free) preceded by a segment in which no match can start:
if the target starts with `mailto:`, `tel:` or `#` — or contains
`/api/track/`, the exclusion the original claim omitted — the whole
match is kept byte-for-byte and no link is minted; otherwise the target
is rewritten exactly once into `base/api/track/click/<fresh token>` and
the `(clickToken, originalUrl)` pair is prepended to the minted list;
and when at least one link was minted and the tracking token has a
record, that record's `links` field is replaced by the minted mappings
(with zero click counts). -/
theorem C6_rewriteLinks_amended (base : List Char) (supply : Nat → String)
    (k : Nat) (u hp : List Char) (q1 q2 : Char) (url v body : List Char)
    (tok : String) (pre post : List TrackingRecord) (r : TrackingRecord)
    (hu : noCI 'h' u = true) (hhp : ciPrefix "href=".data hp = true)
    (hl : hp.length = 5) (hq1 : isQuote q1 = true) (hq2 : isQuote q2 = true)
    (hurl : url ≠ []) (hnq : url.all (fun c => !(isQuote c)) = true) :
    (skipUrl url = true →
      rewriteLinks base supply k (u ++ (hp ++ (q1 :: (url ++ q2 :: v)))) =
        (u ++ ((hp ++ (q1 :: (url ++ [q2]))) ++ (rewriteLinks base supply k v).1),
          (rewriteLinks base supply k v).2.1,
          (rewriteLinks base supply k v).2.2)) ∧
    (skipUrl url = false →
      rewriteLinks base supply k (u ++ (hp ++ (q1 :: (url ++ q2 :: v)))) =
        (u ++ ("href=".data ++ '"' :: (base ++ clickPath ++ (supply k).data ++ ['"']) ++
            (rewriteLinks base supply (k + 1) v).1),
          (supply k, url) :: (rewriteLinks base supply (k + 1) v).2.1,
          (rewriteLinks base supply (k + 1) v).2.2)) ∧
    ((rewriteLinks base supply k body).2.1 ≠ [] →
      (∀ q ∈ pre, q.trackingToken ≠ tok) → r.trackingToken = tok →
      (rewriteLinksForTracking body tok base supply k (pre ++ r :: post)).2.2.2 =
        pre ++
          { r with links := ((rewriteLinks base supply k body).2.1).map mkLinkRecord }
            :: post) := by
  have hstep := rewriteLinks_at_href base supply k hp q1 q2 url v hhp hl hq1 hq2 hurl hnq
  refine ⟨?_, ?_, ?_⟩
  · intro hsk
    rw [rewriteLinks_skip base supply k u _ hu, hstep, if_pos hsk]
  · intro hsk
    rw [rewriteLinks_skip base supply k u _ hu, hstep, if_neg (by simp [hsk])]
  · intro hne hpre hr
    show (if ((rewriteLinks base supply k body).2.1).isEmpty then _ else _) = _
    have hie : ((rewriteLinks base supply k body).2.1).isEmpty = false := by
      cases hll : (rewriteLinks base supply k body).2.1 with
      | nil => exact absurd hll hne
      | cons a l => rfl
    rw [hie]
    simp only [Bool.false_eq_true, if_false]
    exact setLinks_hit tok _ pre post r hpre hr

/-- Witness for the amended C6: a mailto target is kept byte-for-byte;
an external target is rewritten and its mapping is persisted onto the
matching tracking record. -/
theorem C6_rewriteLinks_amended_witness :
    (rewriteLinks "http://localhost:5000".data (fun _ => "tk") 0
        ("<p>".data ++ ("HREF=".data ++ ('"' ::
          ("mailto:a@b.c".data ++ '"' :: "</p>".data)))) =
      ("<p>".data ++ (("HREF=".data ++ ('"' :: ("mailto:a@b.c".data ++ ['"']))) ++
          (rewriteLinks "http://localhost:5000".data (fun _ => "tk") 0 "</p>".data).1),
        (rewriteLinks "http://localhost:5000".data (fun _ => "tk") 0 "</p>".data).2.1,
        (rewriteLinks "http://localhost:5000".data (fun _ => "tk") 0 "</p>".data).2.2)) ∧
    (rewriteLinksForTracking
        ("<p>".data ++ ("href=".data ++ ('"' ::
          ("https://ex.am".data ++ '"' :: "</p>".data)))) "tok"
        "http://localhost:5000".data (fun _ => "tk") 0 [sampleRecord "tok"]).2.2.2 =
      [{ sampleRecord "tok" with
          links := [{ clickToken := "tk", originalUrl := "https://ex.am",
                      clickCount := 0, firstClickedAt := none,
                      lastClickedAt := none }] }] := by
  constructor
  · exact
      (C6_rewriteLinks_amended "http://localhost:5000".data (fun _ => "tk") 0
        "<p>".data "HREF=".data '"' '"' "mailto:a@b.c".data "</p>".data [] "tok"
        [] [] (sampleRecord "tok")
        (by decide) (by decide) (by decide) (by decide) (by decide)
        (by decide) (by decide)).1 (by decide)
  · have h :=
      (C6_rewriteLinks_amended "http://localhost:5000".data (fun _ => "tk") 0
        "<p>".data "href=".data '"' '"' "https://ex.am".data "</p>".data
        ("<p>".data ++ ("href=".data ++ ('"' ::
          ("https://ex.am".data ++ '"' :: "</p>".data)))) "tok"
        [] [] (sampleRecord "tok")
        (by decide) (by decide) (by decide) (by decide) (by decide)
        (by decide) (by decide)).2.2 (by decide) (by decide) (by decide)
    simp only [List.nil_append] at h
    rw [h]
    decide

/-- Claim C10: `rewriteLinksForTracking` with a tracking token matching
no stored record still returns the rewritten body and the minted link
list, but persists nothing — the store is returned unchanged — so a
later `recordLinkClick` on any minted (fresh) click token returns `null`
and also leaves the store unchanged. -/
theorem C10_unknownTrackingToken (body base : List Char) (supply : Nat → String)
    (k : Nat) (tok now : String) (store : List TrackingRecord)
    (hmiss : ∀ q ∈ store, q.trackingToken ≠ tok) :
    (rewriteLinksForTracking body tok base supply k store).2.2.2 = store ∧
    (rewriteLinksForTracking body tok base supply k store).1 =
      (rewriteLinks base supply k body).1 ∧
    (rewriteLinksForTracking body tok base supply k store).2.1 =
      (rewriteLinks base supply k body).2.1 ∧
    (∀ t, t ∈ ((rewriteLinks base supply k body).2.1).map Prod.fst →
      (∀ q ∈ store, ∀ l ∈ q.links, l.clickToken ≠ t) →
      recordLinkClick t now store = (none, store)) := by
  refine ⟨?_, rfl, rfl, ?_⟩
  · show (if ((rewriteLinks base supply k body).2.1).isEmpty then store
      else setLinks tok _ store) = store
    by_cases hie : ((rewriteLinks base supply k body).2.1).isEmpty = true
    · rw [if_pos hie]
    · rw [if_neg hie]
      exact setLinks_miss tok _ store hmiss
  · intro t _ht hfresh
    exact recordLinkClick_miss t now store hfresh

/-- Witness for C10: one stored record under a different token; the
minted click token is unknown to the store. -/
theorem C10_unknownTrackingToken_witness :
    (rewriteLinksForTracking
        ("<p>".data ++ ("href=".data ++ ('"' ::
          ("https://ex.am".data ++ '"' :: "</p>".data)))) "ghost"
        "http://localhost:5000".data (fun _ => "tk") 0
        [sampleRecord "tok"]).2.2.2 = [sampleRecord "tok"] ∧
    recordLinkClick "tk" "now" [sampleRecord "tok"] =
      (none, [sampleRecord "tok"]) := by
  have h := C10_unknownTrackingToken
    ("<p>".data ++ ("href=".data ++ ('"' ::
      ("https://ex.am".data ++ '"' :: "</p>".data))))
    "http://localhost:5000".data (fun _ => "tk") 0 "ghost" "now"
    [sampleRecord "tok"] (by decide)
  exact ⟨h.1, h.2.2.2 "tk" (by decide) (by decide)⟩

theorem alookup_aset_self (k : String) (v : CachedTransporter)
    (m : List (String × CachedTransporter)) : alookup k (aset k v m) = some v := by
  simp [alookup, aset, List.find?]

theorem alookup_adel_self (k : String) (m : List (String × CachedTransporter)) :
    alookup k (adel k m) = none := by
  induction m with
  | nil => rfl
  | cons p m ih =>
    by_cases h' : (p.1 == k) = true
    · have e : adel k (p :: m) = adel k m := by simp [adel, List.filter_cons, h']
      rw [e, ih]
    · have h'' : (p.1 == k) = false := by simpa using h'
      have e : adel k (p :: m) = p :: adel k m := by
        simp [adel, List.filter_cons, h'']
      rw [e]
      simpa [alookup, List.find?_cons, h''] using ih

theorem countP_adel_le (k : String) (m : List (String × CachedTransporter))
    (p : String × CachedTransporter → Bool) :
    (adel k m).countP p ≤ m.countP p := by
  induction m with
  | nil => simp [adel]
  | cons q m ih =>
    simp only [adel, List.filter_cons, List.countP_cons] at *
    by_cases hq : (!(q.1 == k)) = true
    · simp only [hq, if_pos, List.countP_cons]
      omega
    · simp only [hq, Bool.false_eq_true, if_false]
      omega

theorem atMostOne_aset (k : String) (v : CachedTransporter)
    (m : List (String × CachedTransporter)) (h : atMostOne m) :
    atMostOne (aset k v m) := by
  intro k'
  simp only [aset, List.countP_cons]
  by_cases hk : (k == k') = true
  · have hk' : k = k' := by simpa using hk
    have hzero : (adel k m).countP (fun p => p.1 == k') = 0 := by
      rw [List.countP_eq_zero]
      intro a ha
      have := List.of_mem_filter ha
      simp only [Bool.not_eq_true'] at this
      simp [← hk', this]
    simp [hzero, hk]
  · have := le_trans (countP_adel_le k m (fun p => p.1 == k')) (h k')
    simp only [hk, Bool.false_eq_true, if_false]
    omega

theorem atMostOne_adel (k : String) (m : List (String × CachedTransporter))
    (h : atMostOne m) : atMostOne (adel k m) :=
  fun k' => le_trans (countP_adel_le k m _) (h k')

/-- Claim C3: the transport pool caches at most one connection per
sender email, and (1) an acquire while the cached entry is verified and
younger than the 30-minute TTL returns the cached handle with no
verification call, merely refreshing `lastUsed`; (2) an acquire on a
stale or unverified entry closes and discards it and creates a fresh
connection, performing exactly one new verification, caching the fresh
verified handle on success; (3) an `EAUTH` failure during a send evicts
the entry, and (4) an acquire that finds no entry performs a fresh
verification; (5) the at-most-one-entry-per-sender invariant is
preserved by every acquire. -/
theorem C3_transportPool (env : Env) (cfg : SMTPConfig) (now : Nat)
    (st : EmailSvcState) (c : CachedTransporter) (opts : EmailOptions)
    (err : SendErr) (conn : Nat) (st' : EmailSvcState) :
    (alookup cfg.email st.cache = some c → c.verified = true →
      now - c.lastUsed < CACHE_TTL →
      getTransporter env cfg now st =
        (.ok c.connId,
          { st with cache := aset cfg.email { c with lastUsed := now } st.cache })) ∧
    (alookup cfg.email st.cache = some c →
      ¬(c.verified = true ∧ now - c.lastUsed < CACHE_TTL) →
      (getTransporter env cfg now st).2.closed = st.closed ++ [c.connId] ∧
      (getTransporter env cfg now st).2.verifyCalls = st.verifyCalls + 1 ∧
      (env.verOk st.verifyCalls = true →
        (getTransporter env cfg now st).1 = .ok st.nextConnId ∧
        alookup cfg.email (getTransporter env cfg now st).2.cache =
          some ⟨st.nextConnId, now, true⟩)) ∧
    (getTransporter env cfg now st = (.ok conn, st') →
      env.sendRes st'.sendCalls = some err → err.code = .eauth →
      alookup cfg.email (sendEmail env cfg opts now st).2.cache = none) ∧
    (alookup cfg.email st.cache = none →
      (getTransporter env cfg now st).2.verifyCalls = st.verifyCalls + 1) ∧
    (atMostOne st.cache → atMostOne (getTransporter env cfg now st).2.cache) := by
  refine ⟨?_, ?_, ?_, ?_, ?_⟩
  · intro h hv htl
    unfold getTransporter
    rw [h]
    dsimp only
    rw [if_pos ⟨by simpa using hv, htl⟩]
  · intro h hcond
    unfold getTransporter
    rw [h]
    dsimp only
    rw [if_neg (by simpa using hcond)]
    unfold createAndVerify
    by_cases hok : env.verOk st.verifyCalls = true
    · simp [hok, alookup_aset_self]
    · simp only [hok, Bool.false_eq_true, if_false]
      exact ⟨trivial, trivial, fun hc => hc.elim⟩
  · intro hgt hres hea
    unfold sendEmail
    rw [hgt]
    dsimp only
    rw [hres]
    dsimp only
    rw [if_pos hea]
    exact alookup_adel_self _ _
  · intro h
    unfold getTransporter
    rw [h]
    dsimp only
    unfold createAndVerify
    by_cases hok : env.verOk st.verifyCalls = true
    · simp [hok]
    · simp [hok]
  · intro h
    unfold getTransporter
    cases hl : alookup cfg.email st.cache with
    | none =>
      dsimp only
      unfold createAndVerify
      by_cases hok : env.verOk st.verifyCalls = true
      · simp only [hok, if_pos]
        exact atMostOne_aset _ _ _ h
      · simpa [hok] using h
    | some c' =>
      dsimp only
      by_cases hcond : (c'.verified = true ∧ now - c'.lastUsed < CACHE_TTL)
      · rw [if_pos (by simpa using hcond)]
        exact atMostOne_aset _ _ _ h
      · rw [if_neg (by simpa using hcond)]
        unfold createAndVerify
        by_cases hok : env.verOk st.verifyCalls = true
        · simp only [hok, if_pos]
          exact atMostOne_aset _ _ _ (atMostOne_adel _ _ h)
        · simp only [hok, Bool.false_eq_true, if_false]
          exact atMostOne_adel _ _ h

/-- Witness for C3: a warm cache hit at `now = 1000`, a TTL-expired
acquire at `now = 2000000` (closing connection 7 and re-verifying), an
`EAUTH` send failure evicting the entry, a cold acquire verifying, and
invariant preservation. -/
theorem C3_transportPool_witness :
    getTransporter envEauthSend cfg0 1000 st1 =
      (.ok 7, { st1 with cache := aset "me@x.com" ⟨7, 1000, true⟩ st1.cache }) ∧
    (getTransporter envEauthSend cfg0 2000000 st1).2.closed = [7] ∧
    (getTransporter envEauthSend cfg0 2000000 st1).2.verifyCalls = 4 ∧
    alookup "me@x.com" (sendEmail envEauthSend cfg0 opts0 1000 st1).2.cache =
      none ∧
    (getTransporter envEauthSend cfg0 5 st0).2.verifyCalls = 1 ∧
    atMostOne (getTransporter envEauthSend cfg0 1000 st1).2.cache := by
  have amo : atMostOne st1.cache :=
    fun k => le_trans (List.countP_le_length _) (by decide)
  have h := C3_transportPool envEauthSend cfg0 1000 st1 ⟨7, 0, true⟩ opts0
    ⟨.eauth, "bad"⟩ 7 ({ st1 with cache := aset "me@x.com" ⟨7, 1000, true⟩ st1.cache })
  have h2 := C3_transportPool envEauthSend cfg0 2000000 st1 ⟨7, 0, true⟩ opts0
    ⟨.eauth, "bad"⟩ 7 st1
  have h0 := C3_transportPool envEauthSend cfg0 5 st0 ⟨0, 0, false⟩ opts0
    ⟨.eauth, "bad"⟩ 0 st0
  have hfirst := h.1 (by decide) (by decide) (by decide)
  refine ⟨hfirst,
    (h2.2.1 (by decide) (by decide)).1,
    (h2.2.1 (by decide) (by decide)).2.1,
    h.2.2.1 hfirst (by decide) (by decide),
    h0.2.2.2.1 (by decide),
    h.2.2.2.2 amo⟩

theorem count_sent_failed (l : List Outcome) :
    l.countP (fun o => o.status == SendStatus.sent) +
      l.countP (fun o => o.status == SendStatus.failed) = l.length := by
  induction l with
  | nil => rfl
  | cons o l ih =>
    simp only [List.countP_cons, List.length_cons]
    cases h : o.status <;> simp [h] <;> omega

theorem runLoop_emails (env : Env) (cfg : SMTPConfig) (subject body : List Char)
    (atts : List Attachment) (n bs bd : Nat) :
    ∀ (rs : List Recipient) (i : Nat) (st : EmailSvcState),
      (runLoop env cfg subject body atts n bs bd i rs st).1.map
          (fun o => o.email) =
        rs.map (fun r => r.email) := by
  intro rs
  induction rs with
  | nil => intro i st; rfl
  | cons r rs ih =>
    intro i st
    simp only [runLoop, List.map_cons]
    cases hp : (sendEmail env cfg (mkOpts cfg subject body atts r)
        (env.timeOf i) st).1 <;>
      simp [hp, ih]

theorem runLoop_failed_msg (env : Env) (cfg : SMTPConfig)
    (subject body : List Char) (atts : List Attachment) (n bs bd : Nat) :
    ∀ (rs : List Recipient) (i : Nat) (st : EmailSvcState),
      ∀ o ∈ (runLoop env cfg subject body atts n bs bd i rs st).1,
        o.status = .failed → ∃ m, o.error = some m ∧ m ≠ "" := by
  intro rs
  induction rs with
  | nil => intro i st o ho; exact absurd ho (by simp [runLoop])
  | cons r rs ih =>
    intro i st o ho hof
    simp only [runLoop, List.mem_cons] at ho
    rcases ho with ho | ho
    · subst ho
      revert hof
      cases hp : (sendEmail env cfg (mkOpts cfg subject body atts r)
          (env.timeOf i) st).1 with
      | ok u => intro hof; exact absurd hof (by simp)
      | error e =>
        intro _
        by_cases he : e.msg = ""
        · exact ⟨"Unknown error", by simp [he], by decide⟩
        · exact ⟨e.msg, by simp [he], he⟩
    · exact ih (i + 1) _ o ho hof

theorem filterMap_range_shift {α : Type} (f : Nat → Option α) (m : Nat) :
    (List.range (m + 1)).filterMap f =
      (f 0).toList ++ (List.range m).filterMap (fun j => f (j + 1)) := by
  rw [List.range_succ_eq_map, List.filterMap_cons, List.filterMap_map]
  have h2 : (List.range m).filterMap (f ∘ Nat.succ) =
      (List.range m).filterMap (fun j => f (j + 1)) :=
    List.filterMap_congr (fun x _ => rfl)
  rw [h2]
  cases hf : f 0 <;> simp [hf]

theorem runLoop_delays (env : Env) (cfg : SMTPConfig) (subject body : List Char)
    (atts : List Attachment) (n bs bd : Nat) :
    ∀ (rs : List Recipient) (i : Nat) (st : EmailSvcState),
      (runLoop env cfg subject body atts n bs bd i rs st).2.1 =
        (List.range rs.length).filterMap
          (fun j => if i + j + 1 < n then
            some (if (i + j + 1) % bs = 0 then bd * 1000 else 300) else none) := by
  intro rs
  induction rs with
  | nil => intro i st; rfl
  | cons r rs ih =>
    intro i st
    simp only [runLoop, List.length_cons]
    rw [filterMap_range_shift]
    have htail := ih (i + 1) ((sendEmail env cfg
      (mkOpts cfg subject body atts r) (env.timeOf i) st).2)
    congr 1
    · by_cases hB : i + 1 < n
      · have hB' : i < n - 1 := by omega
        have h0 : i + 0 + 1 < n := by omega
        by_cases hA : (i + 1) % bs = 0
        · simp [hA, hB', h0]
        · simp [hA, hB', h0]
      · have hB' : ¬(i < n - 1) := by omega
        have h0 : ¬(i + 0 + 1 < n) := by omega
        simp [hB', h0]
    · rw [htail]
      refine List.filterMap_congr (fun j _ => ?_)
      show (if (i + 1) + j + 1 < n then
          some (if ((i + 1) + j + 1) % bs = 0 then bd * 1000 else 300)
          else none) =
        (if i + (j + 1) + 1 < n then
          some (if (i + (j + 1) + 1) % bs = 0 then bd * 1000 else 300)
          else none)
      have e : (i + 1) + j + 1 = i + (j + 1) + 1 := by omega
      rw [e]

/-- Claim C2: a dispatch run that passes precondition validation returns
a summary with `sent + failed = total = recipients.length`, a results
array with exactly one entry per input recipient in input order, and
every failure recorded as a failed outcome carrying a non-empty error
message (a single recipient's failure never prevents the others from
being attempted — the results cover every recipient). -/
theorem C2_dispatchSummary (env : Env) (cfg : SMTPConfig)
    (subject body : List Char) (atts : List Attachment)
    (recipients : List Recipient) (bs bd : Nat) (st : EmailSvcState)
    (hrec : recipients ≠ []) (hsub : subject ≠ []) (hbody : body ≠ []) :
    ∃ resp, sendCampaign env cfg subject body atts recipients bs bd st =
        .ok resp ∧
      resp.total = recipients.length ∧
      resp.sent + resp.failed = resp.total ∧
      resp.results.map (fun o => o.email) = recipients.map (fun r => r.email) ∧
      (∀ o ∈ resp.results, o.status = .failed →
        ∃ m, o.error = some m ∧ m ≠ "") := by
  have hre : recipients.isEmpty = false := by
    cases recipients with
    | nil => exact absurd rfl hrec
    | cons a l => rfl
  have hse : subject.isEmpty = false := by
    cases subject with
    | nil => exact absurd rfl hsub
    | cons a l => rfl
  have hbe : body.isEmpty = false := by
    cases body with
    | nil => exact absurd rfl hbody
    | cons a l => rfl
  unfold sendCampaign
  simp only [hre, hse, hbe, Bool.false_eq_true, if_false, Bool.or_self]
  refine ⟨_, rfl, rfl, ?_, ?_, ?_⟩
  · show (_ : List Outcome).countP _ + (_ : List Outcome).countP _ =
      recipients.length
    rw [count_sent_failed]
    have := congrArg List.length
      (runLoop_emails env cfg subject body atts recipients.length bs bd
        recipients 0 st)
    simpa using this
  · exact runLoop_emails env cfg subject body atts recipients.length bs bd
      recipients 0 st
  · exact runLoop_failed_msg env cfg subject body atts recipients.length bs bd
      recipients 0 st

/-- Witness for C2 at a concrete two-recipient run in which the second
send fails. -/
theorem C2_dispatchSummary_witness :
    ∃ resp, sendCampaign
        { verOk := fun _ => true, verMsg := fun _ => "",
          sendRes := fun n => if n = 1 then some ⟨.eother, "mailbox full"⟩
            else none,
          timeOf := fun _ => 0 }
        cfg0 "S".data "B".data [] [⟨"a@b.c", "A", "C", none⟩,
          ⟨"d@e.f", "D", "C", none⟩] 10 60 st0 = .ok resp ∧
      resp.total = 2 ∧
      resp.sent + resp.failed = resp.total ∧
      resp.results.map (fun o => o.email) = ["a@b.c", "d@e.f"] ∧
      (∀ o ∈ resp.results, o.status = .failed →
        ∃ m, o.error = some m ∧ m ≠ "") := by
  have h := C2_dispatchSummary
    { verOk := fun _ => true, verMsg := fun _ => "",
      sendRes := fun n => if n = 1 then some ⟨.eother, "mailbox full"⟩
        else none,
      timeOf := fun _ => 0 }
    cfg0 "S".data "B".data [] [⟨"a@b.c", "A", "C", none⟩,
      ⟨"d@e.f", "D", "C", none⟩] 10 60 st0
    (by decide) (by decide) (by decide)
  exact h

/-- Claim C9: during a dispatch run, after every `bs`-th recipient with
at least one more remaining the run sleeps `bd * 1000` ms; between every
other pair of consecutive sends it sleeps the fixed 300 ms stagger; and
no delay follows the last recipient. -/
theorem C9_pacing (env : Env) (cfg : SMTPConfig) (subject body : List Char)
    (atts : List Attachment) (recipients : List Recipient) (bs bd : Nat)
    (st : EmailSvcState) (hrec : recipients ≠ []) (hsub : subject ≠ [])
    (hbody : body ≠ []) :
    ∃ resp, sendCampaign env cfg subject body atts recipients bs bd st =
        .ok resp ∧
      resp.delays = (List.range recipients.length).filterMap
        (fun i => if i + 1 < recipients.length then
          some (if (i + 1) % bs = 0 then bd * 1000 else 300) else none) := by
  have hre : recipients.isEmpty = false := by
    cases recipients with
    | nil => exact absurd rfl hrec
    | cons a l => rfl
  have hse : subject.isEmpty = false := by
    cases subject with
    | nil => exact absurd rfl hsub
    | cons a l => rfl
  have hbe : body.isEmpty = false := by
    cases body with
    | nil => exact absurd rfl hbody
    | cons a l => rfl
  unfold sendCampaign
  simp only [hre, hse, hbe, Bool.false_eq_true, if_false, Bool.or_self]
  refine ⟨_, rfl, ?_⟩
  have := runLoop_delays env cfg subject body atts recipients.length bs bd
    recipients 0 st
  rw [this]
  simp

/-- Witness for C9: five recipients with `bs = 2`, `bd = 1`: delays are
stagger, batch, stagger, batch — and nothing after the fifth. -/
theorem C9_pacing_witness :
    ∃ resp, sendCampaign envAllOk cfg0 "S".data "B".data []
        [⟨"a@b.c", "A", "C", none⟩, ⟨"d@e.f", "D", "C", none⟩,
          ⟨"g@h.i", "G", "C", none⟩, ⟨"j@k.l", "J", "C", none⟩,
          ⟨"m@n.o", "M", "C", none⟩] 2 1 st0 = .ok resp ∧
      resp.delays = (List.range 5).filterMap
        (fun i => if i + 1 < 5 then
          some (if (i + 1) % 2 = 0 then 1 * 1000 else 300) else none) := by
  exact C9_pacing envAllOk cfg0 "S".data "B".data []
    [⟨"a@b.c", "A", "C", none⟩, ⟨"d@e.f", "D", "C", none⟩,
      ⟨"g@h.i", "G", "C", none⟩, ⟨"j@k.l", "J", "C", none⟩,
      ⟨"m@n.o", "M", "C", none⟩] 2 1 st0 (by decide) (by decide) (by decide)

theorem getTransporter_preserves (env : Env) (cfg : SMTPConfig) (now : Nat)
    (st : EmailSvcState) :
    (getTransporter env cfg now st).2.msgs = st.msgs ∧
    (getTransporter env cfg now st).2.sendCalls = st.sendCalls := by
  unfold getTransporter
  cases hl : alookup cfg.email st.cache with
  | none =>
    dsimp only
    unfold createAndVerify
    by_cases hok : env.verOk st.verifyCalls = true <;> simp [hok]
  | some c =>
    dsimp only
    by_cases hcond : (c.verified = true ∧ now - c.lastUsed < CACHE_TTL)
    · rw [if_pos (by simpa using hcond)]
      exact ⟨rfl, rfl⟩
    · rw [if_neg (by simpa using hcond)]
      unfold createAndVerify
      by_cases hok : env.verOk st.verifyCalls = true <;> simp [hok]

theorem getTransporter_ok (env : Env) (cfg : SMTPConfig) (now : Nat)
    (st : EmailSvcState) (hver : ∀ k, env.verOk k = true) :
    ∃ conn st', getTransporter env cfg now st = (.ok conn, st') := by
  unfold getTransporter
  cases hl : alookup cfg.email st.cache with
  | none =>
    dsimp only
    unfold createAndVerify
    simp [hver]
  | some c =>
    dsimp only
    by_cases hcond : (c.verified = true ∧ now - c.lastUsed < CACHE_TTL)
    · rw [if_pos (by simpa using hcond)]
      exact ⟨_, _, rfl⟩
    · rw [if_neg (by simpa using hcond)]
      unfold createAndVerify
      simp [hver]

theorem sendEmail_msgs (env : Env) (cfg : SMTPConfig) (opts : EmailOptions)
    (now : Nat) (st : EmailSvcState) (hver : ∀ k, env.verOk k = true) :
    (sendEmail env cfg opts now st).2.msgs = st.msgs ++ [opts] := by
  obtain ⟨conn, st', hgt⟩ := getTransporter_ok env cfg now st hver
  have hpres : st'.msgs = st.msgs := by
    have := (getTransporter_preserves env cfg now st).1
    rw [hgt] at this
    exact this
  unfold sendEmail
  rw [hgt]
  dsimp only
  cases hr : env.sendRes st'.sendCalls with
  | none => simp [hpres]
  | some err =>
    by_cases he : err.code = ErrCode.eauth <;> simp [he, hpres]

theorem runLoop_msgs (env : Env) (cfg : SMTPConfig) (subject body : List Char)
    (atts : List Attachment) (n bs bd : Nat) (hver : ∀ k, env.verOk k = true) :
    ∀ (rs : List Recipient) (i : Nat) (st : EmailSvcState),
      (runLoop env cfg subject body atts n bs bd i rs st).2.2.msgs =
        st.msgs ++ rs.map (mkOpts cfg subject body atts) := by
  intro rs
  induction rs with
  | nil => intro i st; simp [runLoop]
  | cons r rs ih =>
    intro i st
    simp only [runLoop, List.map_cons]
    rw [ih (i + 1)]
    rw [sendEmail_msgs env cfg _ _ st hver]
    simp

/-- Claim C1, as stated, is false on the code: `sendCampaign` never
invokes the tracking subsystem.  Concretely, for a one-recipient run the
message handed to the transport is exactly the personalized body — it
contains no `/api/track/` pixel or rewritten-link URL. -/
theorem C1_counterexample :
    (sendCampaign envAllOk cfg0 "Hi".data
        "Hello {fullName} <a href=\"https://x.y\">s</a>".data []
        [⟨"alice@e.com", "Alice", "Acme", none⟩] 10 60 st0).toOption.map
        (fun resp => resp.finalState.msgs.map (fun m => m.html)) =
      some ["Hello Alice <a href=\"https://x.y\">s</a>".data] ∧
    containsSub "/api/track/".data
      "Hello Alice <a href=\"https://x.y\">s</a>".data = false := by
  refine ⟨by decide, by decide⟩

/-- Claim C1 (amended): the dispatch loop of `sendCampaign` registers no
tracking record and embeds neither pixel nor rewritten links: for every
recipient that reaches the transport (all of them, when verification
succeeds throughout), the transmitted message is exactly
`mkOpts` — personalized subject, personalized body unchanged, the
request's attachments.  (Trivially, no tracking failure can block a
send: the dispatch path contains no tracking call at all — the model's
tracking store is not even an input of `sendCampaign`.) -/
theorem C1_noTracking_amended (env : Env) (cfg : SMTPConfig)
    (subject body : List Char) (atts : List Attachment)
    (recipients : List Recipient) (bs bd : Nat) (st : EmailSvcState)
    (hver : ∀ k, env.verOk k = true) (hrec : recipients ≠ [])
    (hsub : subject ≠ []) (hbody : body ≠ []) :
    ∃ resp, sendCampaign env cfg subject body atts recipients bs bd st =
        .ok resp ∧
      resp.finalState.msgs =
        st.msgs ++ recipients.map (mkOpts cfg subject body atts) ∧
      (recipients.map (mkOpts cfg subject body atts)).map (fun m => m.html) =
        recipients.map (fun r => personalizeContent body (mkData r)) := by
  have hre : recipients.isEmpty = false := by
    cases recipients with
    | nil => exact absurd rfl hrec
    | cons a l => rfl
  have hse : subject.isEmpty = false := by
    cases subject with
    | nil => exact absurd rfl hsub
    | cons a l => rfl
  have hbe : body.isEmpty = false := by
    cases body with
    | nil => exact absurd rfl hbody
    | cons a l => rfl
  unfold sendCampaign
  simp only [hre, hse, hbe, Bool.false_eq_true, if_false, Bool.or_self]
  refine ⟨_, rfl, ?_, ?_⟩
  · exact runLoop_msgs env cfg subject body atts recipients.length bs bd hver
      recipients 0 st
  · simp [mkOpts]

/-- Witness for the amended C1 at a concrete run. -/
theorem C1_noTracking_amended_witness :
    ∃ resp, sendCampaign envAllOk cfg0 "Hi".data "Hello {fullName}".data []
        [⟨"alice@e.com", "Alice", "Acme", none⟩] 10 60 st0 = .ok resp ∧
      resp.finalState.msgs =
        st0.msgs ++ [⟨"alice@e.com", "Alice", "Acme", none⟩].map
          (mkOpts cfg0 "Hi".data "Hello {fullName}".data []) ∧
      ([⟨"alice@e.com", "Alice", "Acme", none⟩].map
          (mkOpts cfg0 "Hi".data "Hello {fullName}".data [])).map
          (fun m => m.html) =
        [⟨"alice@e.com", "Alice", "Acme", none⟩].map
          (fun r => personalizeContent "Hello {fullName}".data (mkData r)) :=
  C1_noTracking_amended envAllOk cfg0 "Hi".data "Hello {fullName}".data []
    [⟨"alice@e.com", "Alice", "Acme", none⟩] 10 60 st0
    (fun _ => rfl) (by decide) (by decide) (by decide)

theorem sendEmail_authfail (env : Env) (cfg : SMTPConfig) (opts : EmailOptions)
    (now : Nat) (st : EmailSvcState) (hver : ∀ k, env.verOk k = false)
    (hmiss : alookup cfg.email st.cache = none) :
    ∃ e, sendEmail env cfg opts now st =
      (.error e, { st with nextConnId := st.nextConnId + 1,
                           verifyCalls := st.verifyCalls + 1 }) := by
  unfold sendEmail getTransporter
  rw [hmiss]
  dsimp only
  unfold createAndVerify
  simp only [hver st.verifyCalls, Bool.false_eq_true, if_false]
  dsimp only
  by_cases hc : containsSub "Invalid login".data
      ("SMTP authentication failed: " ++ env.verMsg st.verifyCalls).data = true
  · rw [if_pos hc]
    exact ⟨_, rfl⟩
  · rw [if_neg hc]
    exact ⟨_, rfl⟩

theorem runLoop_authfail (env : Env) (cfg : SMTPConfig)
    (subject body : List Char) (atts : List Attachment) (n bs bd : Nat)
    (hver : ∀ k, env.verOk k = false) :
    ∀ (rs : List Recipient) (i : Nat) (st : EmailSvcState),
      alookup cfg.email st.cache = none →
      (∀ o ∈ (runLoop env cfg subject body atts n bs bd i rs st).1,
        o.status = .failed) ∧
      (runLoop env cfg subject body atts n bs bd i rs st).2.2.verifyCalls =
        st.verifyCalls + rs.length ∧
      (runLoop env cfg subject body atts n bs bd i rs st).2.2.msgs = st.msgs := by
  intro rs
  induction rs with
  | nil => intro i st _; exact ⟨by simp [runLoop], by simp [runLoop], rfl⟩
  | cons r rs ih =>
    intro i st hmiss
    obtain ⟨e, hse⟩ := sendEmail_authfail env cfg
      (mkOpts cfg subject body atts r) (env.timeOf i) st hver hmiss
    have hmiss' : alookup cfg.email
        ({ st with nextConnId := st.nextConnId + 1,
                   verifyCalls := st.verifyCalls + 1 } : EmailSvcState).cache =
        none := hmiss
    have hih := ih (i + 1)
      ((sendEmail env cfg (mkOpts cfg subject body atts r) (env.timeOf i) st).2)
      (by rw [hse]; exact hmiss')
    simp only [hse] at hih
    simp only [runLoop, hse]
    refine ⟨?_, ?_, ?_⟩
    · intro o ho
      simp only [List.mem_cons] at ho
      rcases ho with ho | ho
      · subst ho; rfl
      · exact hih.1 o ho
    · rw [hih.2.1]
      show st.verifyCalls + 1 + rs.length = st.verifyCalls + (rs.length + 1)
      omega
    · rw [hih.2.2]

/-- Claim C4, as stated, is false on the code: after a terminal
authentication failure (every verification fails) the loop does *not*
short-circuit — each subsequent recipient re-attempts a fresh connection
and verification.  Concretely, a two-recipient run performs two
verification attempts, records two independent failed outcomes, and
hands nothing to `sendMail`. -/
theorem C4_counterexample :
    (sendCampaign envAuthFail cfg0 "S".data "B".data []
        [⟨"a@b.c", "A", "C", none⟩, ⟨"d@e.f", "D", "C", none⟩] 10 60
        st0).toOption.map
        (fun resp => (resp.finalState.verifyCalls,
          resp.finalState.msgs.length,
          resp.results.map (fun o => (o.status, o.error)))) =
      some (2, 0, [(.failed, some "SMTP authentication failed: bad"),
        (.failed, some "SMTP authentication failed: bad")]) := by
  decide

/-- Claim C4 (amended): when the sender credential is terminally
unusable (every verification fails) and nothing usable is cached, every
recipient's outcome is failed and the loop continues to the end — but
there is no short-circuit: the run performs one fresh
connection/verification attempt per recipient (`verifyCalls` grows by
the number of recipients) and no message reaches `sendMail`. -/
theorem C4_noShortCircuit_amended (env : Env) (cfg : SMTPConfig)
    (subject body : List Char) (atts : List Attachment)
    (recipients : List Recipient) (bs bd : Nat) (st : EmailSvcState)
    (hver : ∀ k, env.verOk k = false)
    (hmiss : alookup cfg.email st.cache = none) (hrec : recipients ≠ [])
    (hsub : subject ≠ []) (hbody : body ≠ []) :
    ∃ resp, sendCampaign env cfg subject body atts recipients bs bd st =
        .ok resp ∧
      (∀ o ∈ resp.results, o.status = .failed) ∧
      resp.finalState.verifyCalls = st.verifyCalls + recipients.length ∧
      resp.sent = 0 ∧ resp.failed = recipients.length ∧
      resp.finalState.msgs = st.msgs := by
  have hre : recipients.isEmpty = false := by
    cases recipients with
    | nil => exact absurd rfl hrec
    | cons a l => rfl
  have hse : subject.isEmpty = false := by
    cases subject with
    | nil => exact absurd rfl hsub
    | cons a l => rfl
  have hbe : body.isEmpty = false := by
    cases body with
    | nil => exact absurd rfl hbody
    | cons a l => rfl
  have hrun := runLoop_authfail env cfg subject body atts recipients.length bs
    bd hver recipients 0 st hmiss
  have hlen : (runLoop env cfg subject body atts recipients.length bs bd 0
      recipients st).1.length = recipients.length := by
    have := congrArg List.length
      (runLoop_emails env cfg subject body atts recipients.length bs bd
        recipients 0 st)
    simpa using this
  have hsent : (runLoop env cfg subject body atts recipients.length bs bd 0
      recipients st).1.countP (fun o => o.status == SendStatus.sent) = 0 := by
    rw [List.countP_eq_zero]
    intro o ho
    have := hrun.1 o ho
    simp [this]
  unfold sendCampaign
  simp only [hre, hse, hbe, Bool.false_eq_true, if_false, Bool.or_self]
  refine ⟨_, rfl, hrun.1, hrun.2.1, hsent, ?_, hrun.2.2⟩
  show (runLoop env cfg subject body atts recipients.length bs bd 0
      recipients st).1.countP (fun o => o.status == SendStatus.failed) =
    recipients.length
  have := count_sent_failed (runLoop env cfg subject body atts
    recipients.length bs bd 0 recipients st).1
  omega

/-- Witness for the amended C4 at a concrete two-recipient run. -/
theorem C4_noShortCircuit_amended_witness :
    ∃ resp, sendCampaign envAuthFail cfg0 "S".data "B".data []
        [⟨"a@b.c", "A", "C", none⟩, ⟨"d@e.f", "D", "C", none⟩] 10 60 st0 =
        .ok resp ∧
      (∀ o ∈ resp.results, o.status = .failed) ∧
      resp.finalState.verifyCalls = st0.verifyCalls + 2 ∧
      resp.sent = 0 ∧ resp.failed = 2 ∧
      resp.finalState.msgs = st0.msgs :=
  C4_noShortCircuit_amended envAuthFail cfg0 "S".data "B".data []
    [⟨"a@b.c", "A", "C", none⟩, ⟨"d@e.f", "D", "C", none⟩] 10 60 st0
    (fun _ => rfl) (by decide) (by decide) (by decide) (by decide)

end HRCE
